import Mathlib

/-!
# SpyServer client of gr-osmosdr: framer, dispatcher, sample FIFO

A shallow embedding of `lib/spyserver/spyserver_source_c.cc`.

* The object `spyserver_source_c` is a record of its member variables; every
  member function is a function on that record.
* Unsigned 32-bit members are `Nat` with an explicit `% U32` where the C++
  arithmetic can wrap.
* `float` values are exact: the 8-bit and 16-bit conversions only produce
  numbers of the form `k / 2^m` with `|k| ≤ 2^15`, which binary32 represents
  exactly, so they are rationals; a `float` read from the wire is carried as
  its 32-bit pattern.
* `spyserver_protocol.h` (constants, record layouts) is not part of the
  sources at hand, so its constants and the two `memcpy` record decoders are
  fields of the parameter `spyserver_protocol`.
* The host is taken to be little-endian.
* Two ghost members record what leaves the object: `dispatched` (the frames that
  reach the `switch` of `handle_new_message`) and `sent` (the byte strings given
  to `client.send_data`).
* `parse_header` copies the bytes of a header that is continued from an earlier
  call outside the member `header` (see `write_header`); the ghost member
  `stray` records such copies, and a run is traced faithfully as long as
  `stray` does not grow.
* Loops whose trip count is not fixed on entry run on fuel, and running out of
  fuel is a result of its own (`none`, `Outcome.out_of_fuel`), never a return
  value; the theorems below show the calls they speak of return or throw.
-/

namespace SpyServer

/-- Two to the thirty-second: the modulus of `uint32_t` arithmetic. -/
def U32 : Nat := 4294967296

/-- The value of `sizeof(MessageHeader)`: five 32-bit fields. -/
def sizeof_MessageHeader : Nat := 20

/-- The byte (`uint8_t`) at index `i` of a byte image. -/
def byte_at (m : List Nat) (i : Nat) : Nat := m.getD i 0 % 256

/-- A little-endian 32-bit word read at byte offset `off` of a byte image. -/
def read_u32 (m : List Nat) (off : Nat) : Nat :=
  byte_at m off + 256 * byte_at m (off + 1) + 65536 * byte_at m (off + 2)
    + 16777216 * byte_at m (off + 3)

/-- The four little-endian bytes of a 32-bit word. -/
def bytes_u32 (w : Nat) : List Nat :=
  [w % 256, w / 256 % 256, w / 65536 % 256, w / 16777216 % 256]

/-- The record `MessageHeader` of the wire protocol. -/
structure MessageHeader where
  ProtocolID : Nat
  MessageType : Nat
  StreamType : Nat
  SequenceNumber : Nat
  BodySize : Nat
  deriving DecidableEq, Repr

/-- The record `MessageHeader` seen through its twenty bytes of storage. -/
def MessageHeader.of_bytes (m : List Nat) : MessageHeader :=
  { ProtocolID := read_u32 m 0
    MessageType := read_u32 m 4
    StreamType := read_u32 m 8
    SequenceNumber := read_u32 m 12
    BodySize := read_u32 m 16 }

/-- The twenty bytes of storage of a `MessageHeader`. -/
def MessageHeader.to_bytes (h : MessageHeader) : List Nat :=
  bytes_u32 h.ProtocolID ++ bytes_u32 h.MessageType ++ bytes_u32 h.StreamType
    ++ bytes_u32 h.SequenceNumber ++ bytes_u32 h.BodySize

/-- The record `DeviceInfo`, with the fields the client reads or resets. -/
structure DeviceInfo where
  DeviceType : Nat
  DeviceSerial : Nat
  DecimationStageCount : Nat
  GainStageCount : Nat
  MaximumSampleRate : Nat
  MaximumBandwidth : Nat
  MaximumGainIndex : Nat
  MinimumFrequency : Nat
  MaximumFrequency : Nat
  MinimumIQDecimation : Nat
  deriving DecidableEq, Repr

/-- The record `ClientSync`, with the fields the client reads. -/
structure ClientSync where
  CanControl : Nat
  Gain : Nat
  DeviceCenterFrequency : Nat
  IQCenterFrequency : Nat
  MinimumIQCenterFrequency : Nat
  MaximumIQCenterFrequency : Nat
  MinimumFFTCenterFrequency : Nat
  MaximumFFTCenterFrequency : Nat
  deriving DecidableEq, Repr

/-- What `spyserver_protocol.h` declares and the client uses: the version and
size constants, the message-type and streaming-mode codes, and the layout of
the two records that `process_device_info` and `process_client_sync` fill by
`memcpy` from the body buffer. -/
structure spyserver_protocol where
  SPYSERVER_PROTOCOL_VERSION : Nat
  SPYSERVER_MAX_MESSAGE_BODY_SIZE : Nat
  MSG_TYPE_DEVICE_INFO : Nat
  MSG_TYPE_CLIENT_SYNC : Nat
  MSG_TYPE_UINT8_IQ : Nat
  MSG_TYPE_INT16_IQ : Nat
  MSG_TYPE_FLOAT_IQ : Nat
  MSG_TYPE_UINT8_FFT : Nat
  STREAM_MODE_IQ_ONLY : Nat
  STREAM_MODE_FFT_ONLY : Nat
  STREAM_MODE_FFT_IQ : Nat
  read_DeviceInfo : List Nat → DeviceInfo
  read_ClientSync : List Nat → ClientSync

/-- A `float`: an exactly represented rational, or the 32-bit pattern of a
value read from the wire. -/
inductive float32 where
  | exact (q : ℚ)
  | bits (w : Nat)
  deriving DecidableEq

/-- The sample type `gr_complex`. -/
structure gr_complex where
  re : float32
  im : float32
  deriving DecidableEq

/-- The container `boost::circular_buffer<gr_complex>`: a fixed capacity and the
stored elements, oldest first. -/
structure circular_buffer where
  capacity : Nat
  items : List gr_complex
  deriving DecidableEq

/-- The member `size()`. -/
def circular_buffer.size (f : circular_buffer) : Nat := f.items.length

/-- The member `push_back`: appends when there is room; on a full buffer the
oldest element is overwritten (and nothing happens when the capacity is 0). -/
def circular_buffer.push_back (f : circular_buffer) (x : gr_complex) : circular_buffer :=
  if f.size = f.capacity then
    if f.capacity = 0 then f else { f with items := f.items.drop 1 ++ [x] }
  else { f with items := f.items ++ [x] }

/-- The member `at(0)`; the model yields a zero sample on an empty buffer, where
the container would throw. -/
def circular_buffer.at0 (f : circular_buffer) : gr_complex :=
  f.items.headD ⟨.exact 0, .exact 0⟩

/-- The member `pop_front`. -/
def circular_buffer.pop_front (f : circular_buffer) : circular_buffer :=
  { f with items := f.items.drop 1 }

/-- The two phases of the framer. -/
inductive ParserPhase where
  | AcquiringHeader
  | ReadingData
  deriving DecidableEq, Repr

/-- The member variables of `spyserver_source_c`. The member `header` is kept as
its bytes of storage `header_mem`; `stray` lists the writes of `parse_header`
that land outside that storage, as (byte offset from `&header`, bytes).
A null `body_buffer` is `none`. -/
structure spyserver_source_c where
  terminated : Bool
  streaming : Bool
  got_device_info : Bool
  got_sync_info : Bool
  can_control : Bool
  is_connected : Bool
  receiver_thread : Bool
  header_mem : List Nat
  stray : List (Nat × List Nat)
  body_buffer : Option (List Nat)
  body_buffer_length : Nat
  parser_phase : ParserPhase
  parser_position : Nat
  last_sequence_number : Nat
  dropped_buffers : Nat
  down_stream_bytes : Nat
  device_info : DeviceInfo
  device_center_frequency : Nat
  channel_center_frequency : Nat
  channel_decimation_stage_count : Nat
  minimum_tunable_frequency : Nat
  maximum_tunable_frequency : Nat
  streaming_mode : Nat
  bits : Nat
  _sample_rate : ℚ
  _center_freq : ℚ
  _gain : ℚ
  _digitalGain : ℚ
  _sample_rates : List (ℚ × Nat)
  _fifo : circular_buffer
  dispatched : List (MessageHeader × List Nat)
  sent : List (List Nat)

/-- The member `header`, read through its storage. -/
def spyserver_source_c.header (s : spyserver_source_c) : MessageHeader :=
  MessageHeader.of_bytes s.header_mem

/-- The call `std::memcpy(base + off, src, src.length)` seen from the object
whose storage `m` starts at `base`: the bytes that fall inside `m` are replaced,
the others are not part of `m`. -/
def memcpy_at (m : List Nat) (off : Nat) (src : List Nat) : List Nat :=
  m.take off ++ src.take (m.length - off) ++ m.drop (off + src.length)

/-- The statement `std::memcpy(&header + parser_position, buffer, to_write)` of
`parse_header`. The operand `&header` has type `MessageHeader*`, so the sum
`&header + parser_position` is `parser_position * sizeof(MessageHeader)` bytes
past the start of `header`: the bytes reach the storage of `header` only when
`parser_position` is 0. Otherwise the copy is outside `header`, which C++
leaves undefined; what it overwrites depends on the declaration of the class,
which is not among the sources. The model records such a copy in `stray` and
keeps `header` as it was (the destination is at least 20 bytes past its start);
the other members are kept too, which the program does not promise. The general
statements of this file are therefore made for headers copied from offset 0,
and runs through a copy recorded in `stray` appear only at the concrete inputs
that show the defect. -/
def write_header (s : spyserver_source_c) (src : List Nat) : spyserver_source_c :=
  let off := s.parser_position * sizeof_MessageHeader
  { s with
    header_mem := memcpy_at s.header_mem off src
    stray :=
      if s.header_mem.length < off + src.length then
        s.stray ++ [(max off s.header_mem.length, src.drop (s.header_mem.length - off))]
      else s.stray }

/-- The loop of `parse_header`, with the local variables `buffer` (and its
`length`) and `consumed`. `none` stands for running out of `fuel`. -/
def parse_header_loop :
    Nat → spyserver_source_c → List Nat → Nat → Option (Nat × spyserver_source_c)
  | 0, _, _, _ => none
  | fuel + 1, s, buffer, consumed =>
    if 0 < buffer.length then
      let to_write :=
        min ((sizeof_MessageHeader + U32 - s.parser_position % U32) % U32) buffer.length
      let s1 := write_header s (buffer.take to_write)
      let buffer1 := buffer.drop to_write
      let s2 := { s1 with parser_position := (s1.parser_position + to_write) % U32 }
      let consumed1 := consumed + to_write
      if s2.parser_position = sizeof_MessageHeader then
        let s3 := { s2 with parser_position := 0 }
        let s4 :=
          if 0 < s3.header.BodySize then { s3 with parser_phase := .ReadingData } else s3
        some (consumed1, s4)
      else parse_header_loop fuel s2 buffer1 consumed1
    else some (consumed, s)

/-- The member function `parse_header(buffer, length)`: the number of bytes
consumed and the object afterwards. -/
def parse_header (s : spyserver_source_c) (buffer : List Nat) :
    Option (Nat × spyserver_source_c) :=
  parse_header_loop (buffer.length + 1) s buffer 0

/-- The statement `std::memcpy(body_buffer + parser_position, buffer, to_write)`
of `parse_body`; `body_buffer` is a `uint8_t*`, so the offset is in bytes. -/
def write_body (s : spyserver_source_c) (src : List Nat) : spyserver_source_c :=
  { s with body_buffer := s.body_buffer.map (fun b => memcpy_at b s.parser_position src) }

/-- The loop of `parse_body`. The subtraction `(int) header.BodySize -
parser_position` is carried out in `unsigned int`. -/
def parse_body_loop :
    Nat → spyserver_source_c → List Nat → Nat → Option (Nat × spyserver_source_c)
  | 0, _, _, _ => none
  | fuel + 1, s, buffer, consumed =>
    if 0 < buffer.length then
      let to_write :=
        min ((s.header.BodySize + U32 - s.parser_position % U32) % U32) buffer.length
      let s1 := write_body s (buffer.take to_write)
      let buffer1 := buffer.drop to_write
      let s2 := { s1 with parser_position := (s1.parser_position + to_write) % U32 }
      let consumed1 := consumed + to_write
      if s2.parser_position = s2.header.BodySize then
        some (consumed1, { s2 with parser_position := 0, parser_phase := .AcquiringHeader })
      else parse_body_loop fuel s2 buffer1 consumed1
    else some (consumed, s)

/-- The member function `parse_body(buffer, length)`. -/
def parse_body (s : spyserver_source_c) (buffer : List Nat) :
    Option (Nat × spyserver_source_c) :=
  parse_body_loop (buffer.length + 1) s buffer 0

/-- The bytes of the body buffer (empty when the pointer is null). -/
def spyserver_source_c.body (s : spyserver_source_c) : List Nat :=
  s.body_buffer.getD []

/-- The 8-bit conversion `(v - 128.f) / 128.f`. -/
def uint8_to_float (v : Nat) : ℚ := ((v : ℚ) - 128) / 128

/-- The sample that `process_uint8_samples` builds at index `k`, from the bytes
`sample[0]` and `sample[1]` after `k` steps of `sample += 2`. -/
def uint8_sample (body : List Nat) (k : Nat) : gr_complex :=
  ⟨.exact (uint8_to_float (byte_at body (2 * k))),
   .exact (uint8_to_float (byte_at body (2 * k + 1)))⟩

/-- The `int16_t` at index `j` of the body buffer seen as an `int16_t*`. -/
def read_int16 (body : List Nat) (j : Nat) : Int :=
  let w := byte_at body (2 * j) + 256 * byte_at body (2 * j + 1)
  if w < 32768 then (w : Int) else (w : Int) - 65536

/-- The 16-bit conversion `v / 32768.f`. -/
def int16_to_float (v : Int) : ℚ := (v : ℚ) / 32768

/-- The sample that `process_int16_samples` builds at index `k`. -/
def int16_sample (body : List Nat) (k : Nat) : gr_complex :=
  ⟨.exact (int16_to_float (read_int16 body (2 * k))),
   .exact (int16_to_float (read_int16 body (2 * k + 1)))⟩

/-- The sample that `process_float_samples` builds at index `k`: the two
`float` words are passed through. -/
def float_sample (body : List Nat) (k : Nat) : gr_complex :=
  ⟨.bits (read_u32 body (4 * (2 * k))), .bits (read_u32 body (4 * (2 * k + 1)))⟩

/-- The copy loop shared by the three sample handlers,
`for (i = 0; i < to_copy; i++) { _fifo->push_back(...); sample += 2; }`,
from index `i` with `n` rounds left. -/
def push_samples (decode : Nat → gr_complex) : Nat → Nat → circular_buffer → circular_buffer
  | 0, _, f => f
  | n + 1, i, f => push_samples decode n (i + 1) (f.push_back (decode i))

/-- The common body of the sample handlers once `num_samples` is known:
`n_avail = capacity - size`, `to_copy = min(n_avail, num_samples)`, the copy
loop. The subtraction is in `size_t`; a circular buffer has `size ≤ capacity`. -/
def store_samples (s : spyserver_source_c) (decode : Nat → gr_complex) (num_samples : Nat) :
    spyserver_source_c :=
  let n_avail := s._fifo.capacity - s._fifo.size
  let to_copy := if n_avail < num_samples then n_avail else num_samples
  { s with _fifo := push_samples decode to_copy 0 s._fifo }

/-- The member function `process_uint8_samples`. -/
def process_uint8_samples (s : spyserver_source_c) : spyserver_source_c :=
  store_samples s (uint8_sample s.body) (s.header.BodySize / 2)

/-- The member function `process_int16_samples`. -/
def process_int16_samples (s : spyserver_source_c) : spyserver_source_c :=
  store_samples s (int16_sample s.body) (s.header.BodySize / 2 / 2)

/-- The member function `process_float_samples`. -/
def process_float_samples (s : spyserver_source_c) : spyserver_source_c :=
  store_samples s (float_sample s.body) (s.header.BodySize / 4 / 2)

/-- The member function `process_device_info`. -/
def process_device_info (P : spyserver_protocol) (s : spyserver_source_c) :
    spyserver_source_c :=
  let d := P.read_DeviceInfo s.body
  { s with
    device_info := d
    minimum_tunable_frequency := d.MinimumFrequency
    maximum_tunable_frequency := d.MaximumFrequency
    got_device_info := true }

/-- The member function `process_client_sync`. -/
def process_client_sync (P : spyserver_protocol) (s : spyserver_source_c) :
    spyserver_source_c :=
  let sync := P.read_ClientSync s.body
  let s1 := { s with
    can_control := decide (sync.CanControl ≠ 0)
    _gain := (sync.Gain : ℚ)
    device_center_frequency := sync.DeviceCenterFrequency
    channel_center_frequency := sync.IQCenterFrequency
    _center_freq := (sync.IQCenterFrequency : ℚ) }
  let s2 :=
    if s1.streaming_mode = P.STREAM_MODE_FFT_ONLY ∨ s1.streaming_mode = P.STREAM_MODE_FFT_IQ then
      { s1 with
        minimum_tunable_frequency := sync.MinimumFFTCenterFrequency
        maximum_tunable_frequency := sync.MaximumFFTCenterFrequency }
    else if s1.streaming_mode = P.STREAM_MODE_IQ_ONLY then
      { s1 with
        minimum_tunable_frequency := sync.MinimumIQCenterFrequency
        maximum_tunable_frequency := sync.MaximumIQCenterFrequency }
    else s1
  { s2 with got_sync_info := true }

/-- The member function `process_uint8_fft`: an empty body. -/
def process_uint8_fft (s : spyserver_source_c) : spyserver_source_c := s

/-- The member function `handle_new_message`. A frame that reaches the `switch`
is appended to the ghost member `dispatched`, as the header and the first
`BodySize` bytes of the body buffer. -/
def handle_new_message (P : spyserver_protocol) (s : spyserver_source_c) :
    spyserver_source_c :=
  if s.terminated then s
  else
    let s := { s with dispatched := s.dispatched ++ [(s.header, s.body.take s.header.BodySize)] }
    let t := s.header.MessageType
    if t = P.MSG_TYPE_DEVICE_INFO then process_device_info P s
    else if t = P.MSG_TYPE_CLIENT_SYNC then process_client_sync P s
    else if t = P.MSG_TYPE_UINT8_IQ then process_uint8_samples s
    else if t = P.MSG_TYPE_INT16_IQ then process_int16_samples s
    else if t = P.MSG_TYPE_FLOAT_IQ then process_float_samples s
    else if t = P.MSG_TYPE_UINT8_FFT then process_uint8_fft s
    else s

/-- The two errors that `parse_message` throws. -/
inductive runtime_error where
  | unsupported_protocol_version
  | server_probably_buggy
  deriving DecidableEq, Repr

/-- How a piece of code ends: it returns a value, it throws (the object is in
state `s` at the `throw`), or the model ran out of fuel. -/
inductive Outcome (α : Type) where
  | returned (a : α)
  | thrown (e : runtime_error) (s : spyserver_source_c)
  | out_of_fuel

/-- The inner loop of `parse_message`,
`while (parser_phase == AcquiringHeader && len > 0)`, with the remaining
`buffer`; `none` stands for running out of fuel. -/
def acquire_header_loop :
    Nat → spyserver_source_c → List Nat → Option (spyserver_source_c × List Nat)
  | 0, _, _ => none
  | fuel + 1, s, buffer =>
    if s.parser_phase = .AcquiringHeader ∧ 0 < buffer.length then
      match parse_header s buffer with
      | none => none
      | some (consumed, s1) => acquire_header_loop fuel s1 (buffer.drop consumed)
    else some (s, buffer)

/-- The expression `(v >> 24) & 0xFF`: the major version in a protocol word. -/
def version_major (v : Nat) : Nat := v / 16777216 % 256

/-- The expression `(v >> 16) & 0xFF`: the minor version in a protocol word. -/
def version_minor (v : Nat) : Nat := v / 65536 % 256

/-- The block `if (parser_phase == ReadingData) { ... }` that follows the inner
loop of `parse_message`: the version check, the size check, the allocation of
the body buffer. The member `body_buffer_length` is never assigned; the bytes
of a fresh buffer, not initialised by `new`, are taken as zero. -/
def check_header (P : spyserver_protocol) (s : spyserver_source_c) :
    Except runtime_error spyserver_source_c :=
  let client_major := version_major P.SPYSERVER_PROTOCOL_VERSION
  let client_minor := version_minor P.SPYSERVER_PROTOCOL_VERSION
  let server_major := version_major s.header.ProtocolID
  let server_minor := version_minor s.header.ProtocolID
  if client_major ≠ server_major ∨ client_minor ≠ server_minor then
    .error .unsupported_protocol_version
  else if P.SPYSERVER_MAX_MESSAGE_BODY_SIZE < s.header.BodySize then
    .error .server_probably_buggy
  else if s.body_buffer.isNone ∨ s.body_buffer_length < s.header.BodySize then
    .ok { s with body_buffer := some (List.replicate s.header.BodySize 0) }
  else .ok s

/-- A 32-bit pattern read as an `int32_t`. -/
def int32_of (w : Nat) : Int :=
  if w % U32 < 2147483648 then (w % U32 : Nat) else ((w % U32 : Nat) : Int) - (U32 : Nat)

/-- The initialiser of `int32_t gap`: `header.SequenceNumber -
last_sequence_number - 1`, computed in `uint32_t` and then read as signed. -/
def sequence_gap (sequence_number last_sequence_number : Nat) : Int :=
  int32_of (sequence_number % U32 + (U32 - last_sequence_number % U32) + (U32 - 1))

/-- The statement `dropped_buffers += gap` on the unsigned 32-bit counter. -/
def add_gap (dropped_buffers : Nat) (gap : Int) : Nat :=
  (((dropped_buffers : Int) + gap) % ((U32 : Nat) : Int)).toNat

/-- The block of `parse_message` that runs when `parse_body` has completed a
body: the sequence check for the message types other than device info and
client sync, then `handle_new_message`. -/
def complete_frame (P : spyserver_protocol) (s : spyserver_source_c) : spyserver_source_c :=
  let s1 :=
    if s.header.MessageType ≠ P.MSG_TYPE_DEVICE_INFO
        ∧ s.header.MessageType ≠ P.MSG_TYPE_CLIENT_SYNC then
      let gap := sequence_gap s.header.SequenceNumber s.last_sequence_number
      { s with
        last_sequence_number := s.header.SequenceNumber
        dropped_buffers := add_gap s.dropped_buffers gap }
    else s
  handle_new_message P s1

/-- The first half of the body of the outer loop of `parse_message`:
`if (parser_phase == AcquiringHeader) { inner loop; if (parser_phase ==
ReadingData) { checks } }`, with the remaining `buffer`. -/
def header_stage (P : spyserver_protocol) (s : spyserver_source_c) (buffer : List Nat) :
    Outcome (spyserver_source_c × List Nat) :=
  if s.parser_phase = .AcquiringHeader then
    match acquire_header_loop (buffer.length + 2) s buffer with
    | none => .out_of_fuel
    | some (s1, buffer1) =>
      if s1.parser_phase = .ReadingData then
        match check_header P s1 with
        | .error e => .thrown e s1
        | .ok s2 => .returned (s2, buffer1)
      else .returned (s1, buffer1)
  else .returned (s, buffer)

/-- The second half of the body of the outer loop of `parse_message`:
`if (parser_phase == ReadingData) { parse_body; if (parser_phase ==
AcquiringHeader) { sequence check; handle_new_message } }`. -/
def body_stage (P : spyserver_protocol) (s : spyserver_source_c) (buffer : List Nat) :
    Option (spyserver_source_c × List Nat) :=
  if s.parser_phase = .ReadingData then
    match parse_body s buffer with
    | none => none
    | some (consumed, s1) =>
      some (if s1.parser_phase = .AcquiringHeader then complete_frame P s1 else s1,
        buffer.drop consumed)
  else some (s, buffer)

/-- The outer loop of `parse_message`, `while (len > 0 && !terminated)`. -/
def parse_message_loop (P : spyserver_protocol) :
    Nat → spyserver_source_c → List Nat → Outcome spyserver_source_c
  | 0, _, _ => .out_of_fuel
  | fuel + 1, s, buffer =>
    if 0 < buffer.length ∧ s.terminated = false then
      match header_stage P s buffer with
      | .out_of_fuel => .out_of_fuel
      | .thrown e s1 => .thrown e s1
      | .returned (s1, buffer1) =>
        match body_stage P s1 buffer1 with
        | none => .out_of_fuel
        | some (s2, buffer2) => parse_message_loop P fuel s2 buffer2
    else .returned s

/-- The member function `parse_message(buffer, len)`. -/
def parse_message (P : spyserver_protocol) (s : spyserver_source_c) (buffer : List Nat) :
    Outcome spyserver_source_c :=
  parse_message_loop P (2 * buffer.length + 4)
    { s with down_stream_bytes := s.down_stream_bytes + 1 } buffer

/-- The member function `cleanup`. -/
def cleanup (s : spyserver_source_c) : spyserver_source_c :=
  { s with
    device_info := { s.device_info with
      DeviceType := 0
      DeviceSerial := 0
      DecimationStageCount := 0
      GainStageCount := 0
      MaximumSampleRate := 0
      MaximumBandwidth := 0
      MaximumGainIndex := 0
      MinimumFrequency := 0
      MaximumFrequency := 0 }
    _gain := 0
    _digitalGain := 0
    can_control := false
    got_device_info := false
    got_sync_info := false
    last_sequence_number := U32 - 1
    dropped_buffers := 0
    down_stream_bytes := 0
    parser_phase := .AcquiringHeader
    parser_position := 0
    streaming := false
    terminated := true }

/-- The `while (!terminated)` loop of `thread_loop`, over the chunks that
`client.receive_data` delivers, one per pass with available data (each
non-empty and at most `BufferSize` long). -/
def receive_chunks (P : spyserver_protocol) :
    spyserver_source_c → List (List Nat) → Outcome spyserver_source_c
  | s, [] => .returned s
  | s, chunk :: rest =>
    if s.terminated then .returned s
    else
      match parse_message P s chunk with
      | .returned s1 => receive_chunks P s1 rest
      | other => other

/-- The member function `thread_loop`, for a receiver thread that is delivered
the given chunks and then finds `terminated` set: the framer is reset, the
chunks are parsed until one throws (the `catch` ends the loop), the body buffer
is freed and `cleanup` runs. `none` stands for running out of fuel. -/
def thread_loop (P : spyserver_protocol) (s : spyserver_source_c) (chunks : List (List Nat)) :
    Option spyserver_source_c :=
  match receive_chunks P { s with parser_phase := .AcquiringHeader, parser_position := 0 }
      chunks with
  | .returned s1 => some (cleanup { s1 with body_buffer := none })
  | .thrown _ s1 => some (cleanup { s1 with body_buffer := none })
  | .out_of_fuel => none

/-- The value `WORK_DONE` of the scheduler interface. -/
abbrev WORK_DONE : Int := -1

/-- The copy loop of `work`, `for (i = 0; i < noutput_items; ++i) { out[i] =
_fifo->at(0); _fifo->pop_front(); }`, with `n` rounds left and the output
written so far. -/
def work_copy : Nat → circular_buffer → List gr_complex → circular_buffer × List gr_complex
  | 0, f, out => (f, out)
  | n + 1, f, out => work_copy n f.pop_front (out ++ [f.at0])

/-- The member function `work(noutput_items, input_items, output_items)`: the
returned count, the samples written to `output_items[0]`, and the object
afterwards. -/
def work (s : spyserver_source_c) (noutput_items : Int) :
    Int × List gr_complex × spyserver_source_c :=
  if s.streaming = false then (WORK_DONE, [], s)
  else
    let n_samples_avail : Int := s._fifo.size
    if n_samples_avail < noutput_items then
      (noutput_items, List.replicate noutput_items.toNat ⟨.exact 0, .exact 0⟩, s)
    else
      let r := work_copy noutput_items.toNat s._fifo []
      (noutput_items, r.2, { s with _fifo := r.1 })

/-- An instance of the protocol parameters, used to evaluate the model: version
2.0 (build 1700), bodies of at most 2^20 bytes, and records read as consecutive
little-endian words in the order of their field lists. -/
def demo_protocol : spyserver_protocol :=
  { SPYSERVER_PROTOCOL_VERSION := 2 * 16777216 + 0 * 65536 + 1700
    SPYSERVER_MAX_MESSAGE_BODY_SIZE := 1048576
    MSG_TYPE_DEVICE_INFO := 0
    MSG_TYPE_CLIENT_SYNC := 1
    MSG_TYPE_UINT8_IQ := 100
    MSG_TYPE_INT16_IQ := 101
    MSG_TYPE_FLOAT_IQ := 103
    MSG_TYPE_UINT8_FFT := 301
    STREAM_MODE_IQ_ONLY := 1
    STREAM_MODE_FFT_ONLY := 4
    STREAM_MODE_FFT_IQ := 5
    read_DeviceInfo := fun b =>
      { DeviceType := read_u32 b 0, DeviceSerial := read_u32 b 4
        DecimationStageCount := read_u32 b 8, GainStageCount := read_u32 b 12
        MaximumSampleRate := read_u32 b 16, MaximumBandwidth := read_u32 b 20
        MaximumGainIndex := read_u32 b 24, MinimumFrequency := read_u32 b 28
        MaximumFrequency := read_u32 b 32, MinimumIQDecimation := read_u32 b 36 }
    read_ClientSync := fun b =>
      { CanControl := read_u32 b 0, Gain := read_u32 b 4
        DeviceCenterFrequency := read_u32 b 8, IQCenterFrequency := read_u32 b 12
        MinimumIQCenterFrequency := read_u32 b 16, MaximumIQCenterFrequency := read_u32 b 20
        MinimumFFTCenterFrequency := read_u32 b 24, MaximumFFTCenterFrequency := read_u32 b 28 } }

/-- The object as the constructor's initialiser list and `connect` leave it
when the receiver thread starts: framer in `AcquiringHeader` at offset 0, no
body buffer, an empty FIFO of the given capacity. The storage of `header` is
not initialised by the constructor; the model starts it as zero bytes. -/
def initial (P : spyserver_protocol) (capacity : Nat) : spyserver_source_c :=
  { terminated := false, streaming := false, got_device_info := false
    got_sync_info := false, can_control := false, is_connected := true
    receiver_thread := true
    header_mem := List.replicate sizeof_MessageHeader 0
    stray := [], body_buffer := none, body_buffer_length := 0
    parser_phase := .AcquiringHeader, parser_position := 0
    last_sequence_number := U32 - 1, dropped_buffers := 0, down_stream_bytes := 0
    device_info := ⟨0, 0, 0, 0, 0, 0, 0, 0, 0, 0⟩
    device_center_frequency := 0, channel_center_frequency := 0
    channel_decimation_stage_count := 0
    minimum_tunable_frequency := 0, maximum_tunable_frequency := 0
    streaming_mode := P.STREAM_MODE_IQ_ONLY, bits := 8
    _sample_rate := 0, _center_freq := 0, _gain := 0, _digitalGain := 0
    _sample_rates := [], _fifo := ⟨capacity, []⟩
    dispatched := [], sent := [] }

/-- The end of a pass of the loop of `parse_header` that fills the header:
the offset is reset and the phase changes when the body is not empty. -/
def header_filled (s : spyserver_source_c) : spyserver_source_c :=
  if 0 < ({ s with parser_position := 0 } : spyserver_source_c).header.BodySize then
    { s with parser_position := 0, parser_phase := .ReadingData }
  else { s with parser_position := 0 }

/-- The object once `parse_header`, entered at offset `parser_position` with at
least the rest of a header in `buffer`, has completed the header. -/
def header_completed (s : spyserver_source_c) (buffer : List Nat) : spyserver_source_c :=
  header_filled (write_header s (buffer.take (sizeof_MessageHeader - s.parser_position)))

/-- The frames dispatched so far when a piece of code ends: the ghost member
`dispatched` of the object, whether it returned or threw. -/
def Outcome.frames : Outcome spyserver_source_c → Option (List (MessageHeader × List Nat))
  | .returned s => some s.dispatched
  | .thrown _ s => some s.dispatched
  | .out_of_fuel => none

/-- The error thrown, if any. -/
def Outcome.error : Outcome spyserver_source_c → Option runtime_error
  | .thrown e _ => some e
  | _ => none

/-- The object with which a call returned; the argument `d` otherwise. -/
def Outcome.state_or (d : spyserver_source_c) : Outcome spyserver_source_c → spyserver_source_c
  | .returned s => s
  | _ => d

/-- The bytes of a header of the sample protocol version, of type `UINT8_IQ`,
with the given sequence number and body size. -/
def demo_header (sequence_number body_size : Nat) : List Nat :=
  MessageHeader.to_bytes
    ⟨demo_protocol.SPYSERVER_PROTOCOL_VERSION, demo_protocol.MSG_TYPE_UINT8_IQ, 0,
      sequence_number, body_size⟩

/-- A zero sample, `gr_complex(0,0)`. -/
def zero_sample : gr_complex := ⟨.exact 0, .exact 0⟩

/-- A streaming object whose FIFO of capacity 4 holds the given samples. -/
def demo_fifo_state (items : List gr_complex) : spyserver_source_c :=
  { initial demo_protocol 4 with streaming := true, _fifo := ⟨4, items⟩ }

/-- The record `header` once `parse_header`, entered at offset `parser_position`,
has copied the rest of a header from `buffer`. -/
def completed_header (s : spyserver_source_c) (buffer : List Nat) : MessageHeader :=
  (write_header s (buffer.take (sizeof_MessageHeader - s.parser_position))).header

/-- The object at the start of the loop of `parse_message`, after
`down_stream_bytes++`. -/
def counted (s : spyserver_source_c) : spyserver_source_c :=
  { s with down_stream_bytes := s.down_stream_bytes + 1 }

/-- The bytes of a frame of type `UINT8_IQ` with the given sequence number and
body. -/
def demo_frame (sequence_number : Nat) (body : List Nat) : List Nat :=
  demo_header sequence_number body.length ++ body

/-- A header of protocol version 0.0 with an empty body. -/
def demo_old_version_header : List Nat :=
  MessageHeader.to_bytes ⟨0, demo_protocol.MSG_TYPE_UINT8_IQ, 0, 5, 0⟩

/-- The object after the receiver has been given frame 5. -/
def demo_after_5 : spyserver_source_c :=
  (receive_chunks demo_protocol (initial demo_protocol 8) [demo_frame 5 [1, 2]]).state_or
    (initial demo_protocol 8)

/-! ## The session manager and the control operations: definitions -/

/-- What the missing headers declare for the outbound side and the handshake:
the command and setting codes, the stream formats, the device type of a server
without device, and the two constants that `say_hello` sends. -/
structure spyserver_commands where
  CMD_HELLO : Nat
  CMD_SET_SETTING : Nat
  SETTING_STREAMING_MODE : Nat
  SETTING_STREAMING_ENABLED : Nat
  SETTING_GAIN : Nat
  SETTING_IQ_FORMAT : Nat
  SETTING_IQ_FREQUENCY : Nat
  SETTING_IQ_DECIMATION : Nat
  SETTING_IQ_DIGITAL_GAIN : Nat
  STREAM_FORMAT_UINT8 : Nat
  STREAM_FORMAT_INT16 : Nat
  DEVICE_INVALID : Nat
  ProtocolVersion : Nat
  SoftwareID : List Nat

/-- The value of `sizeof(CommandHeader)`: the words `CommandType` and
`BodySize`. -/
def sizeof_CommandHeader : Nat := 8

/-- The conversion `(uint32_t) x` of a `double`: the fraction is dropped
(towards zero), and the result is that integer when it is in the range of
`uint32_t`, that is for `-1 < x < 2^32`. For any other `x` the conversion is
undefined in C++; the model then takes what the usual x86-64 code computes
(conversion to a 64-bit integer, of which the low 32 bits are kept, so `-1.0`
gives 4294967295, and 0 when the 64-bit conversion overflows). The statements
below that speak of a converted value take `x` in the defined range. -/
def double_to_uint32 (x : ℚ) : Nat :=
  let t := Int.tdiv x.num x.den
  if -9223372036854775808 ≤ t ∧ t < 9223372036854775808 then (t % 4294967296).toNat else 0

/-- The member function `send_command(cmd, args)`: the result and the object
afterwards. The length of `args` goes through `uint16_t argLen`. The byte string
given to `client.send_data` is appended to the ghost member `sent`; the
transport is taken to accept it (when `send_data` throws, the result is
`false`). -/
def send_command (s : spyserver_source_c) (cmd : Nat) (args : List Nat) :
    Bool × spyserver_source_c :=
  if s.is_connected = false then (false, s)
  else
    let argLen := args.length % 65536
    let buffer := bytes_u32 cmd ++ bytes_u32 argLen ++ args.take argLen
    (true, { s with sent := s.sent ++ [buffer] })

/-- The member function `set_setting(settingType, params)`. -/
def set_setting (C : spyserver_commands) (s : spyserver_source_c) (settingType : Nat)
    (params : List Nat) : Bool × spyserver_source_c :=
  let argBytes :=
    if 0 < params.length then
      bytes_u32 settingType ++ (params.map bytes_u32).flatten
    else []
  send_command s C.CMD_SET_SETTING argBytes

/-- The member function `say_hello`. -/
def say_hello (C : spyserver_commands) (s : spyserver_source_c) : Bool × spyserver_source_c :=
  send_command s C.CMD_HELLO (bytes_u32 C.ProtocolVersion ++ C.SoftwareID)

/-- The order of `std::pair<double, uint32_t>` that `std::sort` leaves between
neighbours: `a` may stand before `b` when `b < a` is false. -/
def pair_le (a b : ℚ × Nat) : Prop := a.1 < b.1 ∨ (a.1 = b.1 ∧ a.2 ≤ b.2)

instance pair_le_decidable : DecidableRel pair_le :=
  fun a b => inferInstanceAs (Decidable (a.1 < b.1 ∨ (a.1 = b.1 ∧ a.2 ≤ b.2)))

/-- The call `std::sort(_sample_rates.begin(), _sample_rates.end())`. The order
of pairs is total, so every sorting algorithm gives the same list. -/
def std_sort (rates : List (ℚ × Nat)) : List (ℚ × Nat) := rates.insertionSort pair_le

/-- The loop of `on_connect`, `for (unsigned int i = MinimumIQDecimation; i <=
DecimationStageCount; i++)`, with the table built so far. The shift `1 << i` is
an `int` shift, defined for `i < 31`; the model takes `2^i`. `none` stands for
running out of fuel. -/
def sample_rates_loop (MaximumSampleRate DecimationStageCount : Nat) :
    Nat → Nat → List (ℚ × Nat) → Option (List (ℚ × Nat))
  | 0, _, _ => none
  | fuel + 1, i, rates =>
    if i ≤ DecimationStageCount then
      let sr := MaximumSampleRate / 2 ^ i
      sample_rates_loop MaximumSampleRate DecimationStageCount fuel ((i + 1) % U32)
        (rates ++ [((sr : ℚ), i)])
    else some rates

/-- The member function `on_connect`; `none` stands for running out of fuel. -/
def on_connect (C : spyserver_commands) (s : spyserver_source_c) : Option spyserver_source_c :=
  let s1 := (set_setting C s C.SETTING_STREAMING_MODE [s.streaming_mode]).2
  let s2 := (set_setting C s1 C.SETTING_IQ_FORMAT
    [if s1.bits = 8 then C.STREAM_FORMAT_UINT8 else C.STREAM_FORMAT_INT16]).2
  match sample_rates_loop s2.device_info.MaximumSampleRate s2.device_info.DecimationStageCount
      (s2.device_info.DecimationStageCount + 2) s2.device_info.MinimumIQDecimation
      s2._sample_rates with
  | none => none
  | some rates => some { s2 with _sample_rates := std_sort rates }

/-- The exceptions thrown by `connect` and by the control operations: the two
`std::runtime_error`s, named after their messages, and `std_exception`, an
object of the base class `std::exception` itself, which carries no message. -/
inductive control_error where
  | unsupported_samplerate
  | std_exception
  | no_capability_info
  deriving DecidableEq, Repr

/-- How a call of the session manager ends: it returns a value, it throws, or
the model ran out of fuel; `s` is the object afterwards. -/
inductive Call (α : Type) where
  | returned (a : α) (s : spyserver_source_c)
  | thrown (e : control_error) (s : spyserver_source_c)
  | out_of_fuel

/-- The error thrown, if any. -/
def Call.error {α : Type} : Call α → Option control_error
  | .thrown e _ => some e
  | _ => none

/-- The value returned, if any. -/
def Call.value {α : Type} : Call α → Option α
  | .returned a _ => some a
  | _ => none

/-- The object after the call; the argument `d` when the model ran out of
fuel. -/
def Call.state_or {α : Type} (d : spyserver_source_c) : Call α → spyserver_source_c
  | .returned _ s => s
  | .thrown _ s => s
  | .out_of_fuel => d

/-- The member function `get_sample_rate`. -/
def get_sample_rate (s : spyserver_source_c) : ℚ := s._sample_rate

/-- The search loop of `set_sample_rate` over the entries of `_sample_rates`
that are left: at the first entry with the requested rate the stage is stored
and sent, the rate is stored, and `get_sample_rate()` is returned. -/
def set_sample_rate_loop (C : spyserver_commands) (s : spyserver_source_c) (sampleRate : ℚ) :
    List (ℚ × Nat) → Option (ℚ × spyserver_source_c)
  | [] => none
  | p :: rest =>
    if p.1 = sampleRate then
      let s1 := { s with channel_decimation_stage_count := p.2 }
      let s2 := (set_setting C s1 C.SETTING_IQ_DECIMATION [s1.channel_decimation_stage_count]).2
      let s3 := { s2 with _sample_rate := sampleRate }
      some (get_sample_rate s3, s3)
    else set_sample_rate_loop C s sampleRate rest

/-- The member function `set_sample_rate(sampleRate)`. -/
def set_sample_rate (C : spyserver_commands) (s : spyserver_source_c) (sampleRate : ℚ) :
    Call ℚ :=
  match
    (if sampleRate ≤ 4294967295 then set_sample_rate_loop C s sampleRate s._sample_rates
      else none) with
  | some (r, s1) => .returned r s1
  | none => .thrown .unsupported_samplerate s

/-- The member function `get_center_freq(chan)`. -/
def get_center_freq (s : spyserver_source_c) (_chan : Nat) : ℚ := s._center_freq

/-- The member function `set_center_freq(centerFrequency, chan)`. -/
def set_center_freq (C : spyserver_commands) (s : spyserver_source_c) (centerFrequency : ℚ)
    (chan : Nat) : ℚ × spyserver_source_c :=
  if centerFrequency ≤ 4294967295 then
    let s1 := { s with channel_center_frequency := double_to_uint32 centerFrequency }
    let s2 := (set_setting C s1 C.SETTING_IQ_FREQUENCY [s1.channel_center_frequency]).2
    (centerFrequency, s2)
  else (get_center_freq s chan, s)

/-- The member function `set_gain(gain, chan)`. -/
def set_gain (C : spyserver_commands) (s : spyserver_source_c) (gain : ℚ) (_chan : Nat) :
    ℚ × spyserver_source_c :=
  let s1 :=
    if s.can_control then
      (set_setting C { s with _gain := gain } C.SETTING_GAIN [double_to_uint32 gain]).2
    else s
  (s1._gain, s1)

/-- The member function `set_lna_gain(gain, chan)`. -/
def set_lna_gain (C : spyserver_commands) (s : spyserver_source_c) (gain : ℚ) (chan : Nat) :
    ℚ × spyserver_source_c :=
  set_gain C s gain chan

/-- The member function `disconnect`. The call `client.close_conn()` acts on
the transport only. The call `receiver_thread->join()` waits for the receiver
thread: `last` is what that thread still does to the object before it sees
`terminated`, after which it leaves `thread_loop` (body buffer freed,
`cleanup`). -/
def disconnect (last : spyserver_source_c → spyserver_source_c) (s : spyserver_source_c) :
    spyserver_source_c :=
  let s1 := { s with terminated := true }
  let s2 :=
    if s1.receiver_thread then
      { cleanup { last s1 with body_buffer := none } with receiver_thread := false }
    else s1
  cleanup s2

/-- The poll loop of `connect`, `for (int i = 0; i < 1000 && !hasError; i++)`,
with `n` rounds left, and what follows it. The receiver thread runs beside the
loop: `env i` is what it does to the object before poll `i` reads the flags
(and, once the loop is left after `i` polls, `env i` before the join in
`disconnect`). The result carries the number of polls made. On the `hasError`
path the object thrown is the local `std::exception error`: the assignment
`error = std::runtime_error(... "Server is up but no device is available")`
copies only the base-class part, so `throw error` throws a `std::exception`
without that message. -/
def connect_poll (C : spyserver_commands)
    (env : Nat → spyserver_source_c → spyserver_source_c) :
    Nat → Nat → spyserver_source_c → Nat × Call Unit
  | 0, i, s => (i, .thrown .no_capability_info (disconnect (env i) s))
  | n + 1, i, s =>
    let s1 := env i s
    if s1.got_device_info then
      if s1.device_info.DeviceType = C.DEVICE_INVALID then
        (i + 1, .thrown .std_exception (disconnect (env (i + 1)) s1))
      else if s1.got_sync_info then
        (i + 1,
          match on_connect C s1 with
          | some s2 => .returned () s2
          | none => .out_of_fuel)
      else connect_poll C env n (i + 1) s1
    else connect_poll C env n (i + 1) s1

/-- The member function `connect`, with the number of polls made. The calls
`client.connect_conn()` and `say_hello()` are taken to succeed. -/
def connect (C : spyserver_commands) (env : Nat → spyserver_source_c → spyserver_source_c)
    (s : spyserver_source_c) : Nat × Call Unit :=
  if s.receiver_thread then (0, .returned () s)
  else
    let s1 := { s with is_connected := true }
    let s2 := (say_hello C s1).2
    let s3 := cleanup s2
    let s4 := { s3 with terminated := false, got_sync_info := false, got_device_info := false }
    let s5 := { s4 with receiver_thread := true }
    connect_poll C env 1000 0 s5

/-- The object after the receiver thread has acted `k` times on `s`, at the
polls `i`, ..., `i + k - 1`. -/
def thread_run (env : Nat → spyserver_source_c → spyserver_source_c) :
    Nat → Nat → spyserver_source_c → spyserver_source_c
  | 0, _, s => s
  | k + 1, i, s => thread_run env k (i + 1) (env i s)

/-- The object that poll `i` of `connect` reads, when the loop gets that far
from the object `s` it started with. -/
def poll_state (env : Nat → spyserver_source_c → spyserver_source_c)
    (s : spyserver_source_c) (i : Nat) : spyserver_source_c :=
  thread_run env (i + 1) 0 s

/-- The object with which `connect` enters its poll loop. -/
def connect_start (C : spyserver_commands) (s : spyserver_source_c) : spyserver_source_c :=
  { cleanup (say_hello C { s with is_connected := true }).2 with
    terminated := false, got_sync_info := false, got_device_info := false
    receiver_thread := true }

/-- An instance of the outbound parameters, used to evaluate the model. -/
def demo_commands : spyserver_commands :=
  { CMD_HELLO := 0
    CMD_SET_SETTING := 2
    SETTING_STREAMING_MODE := 0
    SETTING_STREAMING_ENABLED := 1
    SETTING_GAIN := 2
    SETTING_IQ_FORMAT := 100
    SETTING_IQ_FREQUENCY := 101
    SETTING_IQ_DECIMATION := 102
    SETTING_IQ_DIGITAL_GAIN := 103
    STREAM_FORMAT_UINT8 := 1
    STREAM_FORMAT_INT16 := 2
    DEVICE_INVALID := 0
    ProtocolVersion := 2 * 16777216 + 0 * 65536 + 1700
    SoftwareID := [103, 114, 45, 111, 115, 109, 111, 115, 100, 114] }

/-- A header of the sample protocol version with the given message type. -/
def demo_typed_header (message_type sequence_number body_size : Nat) : List Nat :=
  MessageHeader.to_bytes
    ⟨demo_protocol.SPYSERVER_PROTOCOL_VERSION, message_type, 0, sequence_number, body_size⟩

/-- An object whose tunable range is 100 to 200. -/
def demo_tunable_state : spyserver_source_c :=
  { initial demo_protocol 8 with
    minimum_tunable_frequency := 100, maximum_tunable_frequency := 200 }

/-- The table entry of decimation stage `i`: the rate `MaximumSampleRate /
2^i` and the stage. -/
def stage_entry (MaximumSampleRate i : Nat) : ℚ × Nat :=
  (((MaximumSampleRate / 2 ^ i : Nat) : ℚ), i)

/-- The entries of the stages `MinimumIQDecimation`, ..., `DecimationStageCount`
of a device info, in this order. -/
def stage_entries (d : DeviceInfo) : List (ℚ × Nat) :=
  (List.range' d.MinimumIQDecimation (d.DecimationStageCount + 1 - d.MinimumIQDecimation)).map
    (stage_entry d.MaximumSampleRate)

/-- An object without receiver thread, as before `connect`. -/
def demo_unconnected : spyserver_source_c :=
  { initial demo_protocol 8 with receiver_thread := false, is_connected := false }

/-- A device-info frame whose body is 48 zero bytes: device type 0. -/
def demo_invalid_device_frame : List Nat :=
  demo_typed_header 0 0 48 ++ List.replicate 48 0

/-- A receiver thread that parses `demo_invalid_device_frame` before the first
poll and nothing afterwards. -/
def demo_invalid_device_env (i : Nat) (s : spyserver_source_c) : spyserver_source_c :=
  if i = 0 then (parse_message demo_protocol s demo_invalid_device_frame).state_or s else s

/-- An object whose device offers the stages 1 to 3 of a maximum rate of
10000000. -/
def demo_device_state : spyserver_source_c :=
  { initial demo_protocol 8 with device_info := ⟨1, 0, 3, 0, 10000000, 0, 0, 0, 0, 1⟩ }

instance pair_le_total : IsTotal (ℚ × Nat) pair_le :=
  ⟨fun a b => by
    unfold pair_le
    rcases lt_trichotomy a.1 b.1 with h | h | h
    · exact Or.inl (Or.inl h)
    · rcases Nat.le_total a.2 b.2 with h2 | h2
      · exact Or.inl (Or.inr ⟨h, h2⟩)
      · exact Or.inr (Or.inr ⟨h.symm, h2⟩)
    · exact Or.inr (Or.inl h)⟩

instance pair_le_trans : IsTrans (ℚ × Nat) pair_le :=
  ⟨fun a b c hab hbc => by
    unfold pair_le at *
    rcases hab with h1 | ⟨h1, h2⟩
    · rcases hbc with h3 | ⟨h3, _⟩
      · exact Or.inl (lt_trans h1 h3)
      · exact Or.inl (h3 ▸ h1)
    · rcases hbc with h3 | ⟨h3, h4⟩
      · exact Or.inl (h1 ▸ h3)
      · exact Or.inr ⟨h1.trans h3, Nat.le_trans h2 h4⟩⟩

/-- A poll of `connect` that reads the object `t` leaves the loop. -/
def poll_ends (C : spyserver_commands) (t : spyserver_source_c) : Prop :=
  t.got_device_info = true
    ∧ (t.device_info.DeviceType = C.DEVICE_INVALID ∨ t.got_sync_info = true)

/-! ## The framer as a whole: definitions -/

/-- The offset invariant of the framer: in `AcquiringHeader` the offset is inside
the header; in `ReadingData` the body size of `header` is positive and at most
`SPYSERVER_MAX_MESSAGE_BODY_SIZE`, and the offset is inside the body. -/
def offset_invariant (P : spyserver_protocol) (s : spyserver_source_c) : Prop :=
  (s.parser_phase = .AcquiringHeader ∧ s.parser_position < sizeof_MessageHeader)
    ∨ (s.parser_phase = .ReadingData ∧ 0 < s.header.BodySize
      ∧ s.header.BodySize ≤ P.SPYSERVER_MAX_MESSAGE_BODY_SIZE
      ∧ s.parser_position < s.header.BodySize)

/-- The outer loop of `parse_message` once more, with a ghost result: the part
of `buffer` (the local variables `buffer` and `len`) that is left when the loop
is left. Each pass hands the buffer to `parse_header` and `parse_body`, which
take the bytes they count as consumed off its front. -/
def parse_message_left_loop (P : spyserver_protocol) :
    Nat → spyserver_source_c → List Nat → Outcome (spyserver_source_c × List Nat)
  | 0, _, _ => .out_of_fuel
  | fuel + 1, s, buffer =>
    if 0 < buffer.length ∧ s.terminated = false then
      match header_stage P s buffer with
      | .out_of_fuel => .out_of_fuel
      | .thrown e s1 => .thrown e s1
      | .returned (s1, buffer1) =>
        match body_stage P s1 buffer1 with
        | none => .out_of_fuel
        | some (s2, buffer2) => parse_message_left_loop P fuel s2 buffer2
    else .returned (s, buffer)

/-- The member function `parse_message(buffer, len)` with the ghost result of
`parse_message_left_loop`. -/
def parse_message_left (P : spyserver_protocol) (s : spyserver_source_c) (buffer : List Nat) :
    Outcome (spyserver_source_c × List Nat) :=
  parse_message_left_loop P (2 * buffer.length + 4)
    { s with down_stream_bytes := s.down_stream_bytes + 1 } buffer

/-- The result of a run with a ghost result, without the ghost. -/
def Outcome.forget : Outcome (spyserver_source_c × List Nat) → Outcome spyserver_source_c
  | .returned (s, _) => .returned s
  | .thrown e s => .thrown e s
  | .out_of_fuel => .out_of_fuel

/-! ## The framer, step by step -/
theorem U32_eq : U32 = 4294967296 := rfl

theorem sizeof_MessageHeader_eq : sizeof_MessageHeader = 20 := rfl

theorem write_header_parser_position (s : spyserver_source_c) (src : List Nat) :
    (write_header s src).parser_position = s.parser_position := rfl

theorem write_body_parser_position (s : spyserver_source_c) (src : List Nat) :
    (write_body s src).parser_position = s.parser_position := rfl

theorem write_body_header (s : spyserver_source_c) (src : List Nat) :
    (write_body s src).header = s.header := rfl

theorem parse_header_loop_complete (fuel : Nat) (s : spyserver_source_c) (buffer : List Nat)
    (consumed : Nat) (hp : s.parser_position < sizeof_MessageHeader)
    (hlen : sizeof_MessageHeader - s.parser_position ≤ buffer.length) :
    parse_header_loop (fuel + 1) s buffer consumed
      = some (consumed + (sizeof_MessageHeader - s.parser_position),
          header_filled
            (write_header s (buffer.take (sizeof_MessageHeader - s.parser_position)))) := by
  rw [sizeof_MessageHeader_eq] at hp hlen
  have hb : 0 < buffer.length := by omega
  have htw : min ((sizeof_MessageHeader + U32 - s.parser_position % U32) % U32) buffer.length
      = sizeof_MessageHeader - s.parser_position := by
    rw [sizeof_MessageHeader_eq, U32_eq]; omega
  have hfull : (s.parser_position + (sizeof_MessageHeader - s.parser_position)) % U32
      = sizeof_MessageHeader := by
    rw [sizeof_MessageHeader_eq, U32_eq]; omega
  rw [parse_header_loop, if_pos hb]
  simp only [htw, write_header_parser_position, hfull, if_true]
  rfl

theorem parse_header_loop_short (fuel : Nat) (s : spyserver_source_c) (buffer : List Nat)
    (consumed : Nat) (hb : 0 < buffer.length) (hp : s.parser_position < sizeof_MessageHeader)
    (hlen : buffer.length < sizeof_MessageHeader - s.parser_position) :
    parse_header_loop (fuel + 2) s buffer consumed
      = some (consumed + buffer.length,
          { write_header s buffer with
            parser_position := s.parser_position + buffer.length }) := by
  rw [sizeof_MessageHeader_eq] at hp hlen
  have htw : min ((sizeof_MessageHeader + U32 - s.parser_position % U32) % U32) buffer.length
      = buffer.length := by
    rw [sizeof_MessageHeader_eq, U32_eq]; omega
  have hpos : (s.parser_position + buffer.length) % U32 = s.parser_position + buffer.length := by
    rw [U32_eq]; omega
  have hne : ¬ (s.parser_position + buffer.length = sizeof_MessageHeader) := by
    rw [sizeof_MessageHeader_eq]; omega
  rw [parse_header_loop, if_pos hb]
  simp only [htw, write_header_parser_position, hpos, hne, if_false, List.take_length,
    List.drop_length]
  rw [parse_header_loop]
  simp

theorem parse_header_complete (s : spyserver_source_c) (buffer : List Nat)
    (hp : s.parser_position < sizeof_MessageHeader)
    (hlen : sizeof_MessageHeader - s.parser_position ≤ buffer.length) :
    parse_header s buffer
      = some (sizeof_MessageHeader - s.parser_position,
          header_filled
            (write_header s (buffer.take (sizeof_MessageHeader - s.parser_position)))) := by
  rw [parse_header, parse_header_loop_complete _ _ _ _ hp hlen, Nat.zero_add]

theorem parse_header_short (s : spyserver_source_c) (buffer : List Nat)
    (hb : 0 < buffer.length) (hp : s.parser_position < sizeof_MessageHeader)
    (hlen : buffer.length < sizeof_MessageHeader - s.parser_position) :
    parse_header s buffer
      = some (buffer.length,
          { write_header s buffer with
            parser_position := s.parser_position + buffer.length }) := by
  obtain ⟨n, hn⟩ : ∃ n, buffer.length = n + 1 := ⟨buffer.length - 1, by omega⟩
  rw [parse_header, hn, parse_header_loop_short _ _ _ _ hb hp hlen, Nat.zero_add, hn]

theorem parse_body_loop_complete (fuel : Nat) (s : spyserver_source_c) (buffer : List Nat)
    (consumed : Nat) (hp : s.parser_position < s.header.BodySize)
    (hsize : s.header.BodySize < U32)
    (hlen : s.header.BodySize - s.parser_position ≤ buffer.length) :
    parse_body_loop (fuel + 1) s buffer consumed
      = some (consumed + (s.header.BodySize - s.parser_position),
          { write_body s (buffer.take (s.header.BodySize - s.parser_position)) with
            parser_position := 0, parser_phase := .AcquiringHeader }) := by
  rw [U32_eq] at hsize
  have hb : 0 < buffer.length := by omega
  have htw : min ((s.header.BodySize + U32 - s.parser_position % U32) % U32) buffer.length
      = s.header.BodySize - s.parser_position := by
    rw [U32_eq]; omega
  have hfull : (s.parser_position + (s.header.BodySize - s.parser_position)) % U32
      = s.header.BodySize := by
    rw [U32_eq]; omega
  rw [parse_body_loop, if_pos hb]
  simp only [htw, write_body_parser_position, hfull]
  split
  · rfl
  · rename_i h
    exact absurd rfl h

theorem parse_body_loop_short (fuel : Nat) (s : spyserver_source_c) (buffer : List Nat)
    (consumed : Nat) (hb : 0 < buffer.length) (hp : s.parser_position < s.header.BodySize)
    (hsize : s.header.BodySize < U32)
    (hlen : buffer.length < s.header.BodySize - s.parser_position) :
    parse_body_loop (fuel + 2) s buffer consumed
      = some (consumed + buffer.length,
          { write_body s buffer with
            parser_position := s.parser_position + buffer.length }) := by
  rw [U32_eq] at hsize
  have htw : min ((s.header.BodySize + U32 - s.parser_position % U32) % U32) buffer.length
      = buffer.length := by
    rw [U32_eq]; omega
  have hpos : (s.parser_position + buffer.length) % U32 = s.parser_position + buffer.length := by
    rw [U32_eq]; omega
  have hne : ¬ (s.parser_position + buffer.length = s.header.BodySize) := by omega
  rw [parse_body_loop, if_pos hb]
  simp only [htw, write_body_parser_position, hpos, List.take_length, List.drop_length]
  split
  · rename_i h
    exact absurd h hne
  · rw [parse_body_loop]
    simp

theorem parse_body_complete (s : spyserver_source_c) (buffer : List Nat)
    (hp : s.parser_position < s.header.BodySize) (hsize : s.header.BodySize < U32)
    (hlen : s.header.BodySize - s.parser_position ≤ buffer.length) :
    parse_body s buffer
      = some (s.header.BodySize - s.parser_position,
          { write_body s (buffer.take (s.header.BodySize - s.parser_position)) with
            parser_position := 0, parser_phase := .AcquiringHeader }) := by
  rw [parse_body, parse_body_loop_complete _ _ _ _ hp hsize hlen, Nat.zero_add]

theorem parse_body_short (s : spyserver_source_c) (buffer : List Nat)
    (hb : 0 < buffer.length) (hp : s.parser_position < s.header.BodySize)
    (hsize : s.header.BodySize < U32)
    (hlen : buffer.length < s.header.BodySize - s.parser_position) :
    parse_body s buffer
      = some (buffer.length,
          { write_body s buffer with
            parser_position := s.parser_position + buffer.length }) := by
  obtain ⟨n, hn⟩ : ∃ n, buffer.length = n + 1 := ⟨buffer.length - 1, by omega⟩
  rw [parse_body, hn, parse_body_loop_short _ _ _ _ hb hp hsize hlen, Nat.zero_add, hn]

theorem header_completed_phase_pos (s : spyserver_source_c) (buffer : List Nat)
    (h : 0 < (header_completed s buffer).header.BodySize) :
    (header_completed s buffer).parser_phase = .ReadingData := by
  unfold header_completed header_filled at h ⊢
  split
  · rfl
  · rename_i hn
    rw [if_neg hn] at h
    exact absurd h hn

theorem header_completed_phase_zero (s : spyserver_source_c) (buffer : List Nat)
    (h : (header_completed s buffer).header.BodySize = 0) :
    (header_completed s buffer).parser_phase = s.parser_phase := by
  unfold header_completed header_filled at h ⊢
  split
  · rename_i hp
    rw [if_pos hp] at h
    exact absurd h (Nat.ne_of_gt hp)
  · rfl

theorem header_completed_fields (s : spyserver_source_c) (buffer : List Nat) :
    (header_completed s buffer).parser_position = 0
      ∧ (header_completed s buffer).dispatched = s.dispatched
      ∧ (header_completed s buffer).terminated = s.terminated
      ∧ (header_completed s buffer).body_buffer = s.body_buffer
      ∧ (header_completed s buffer).last_sequence_number = s.last_sequence_number
      ∧ (header_completed s buffer).dropped_buffers = s.dropped_buffers
      ∧ (header_completed s buffer)._fifo = s._fifo := by
  unfold header_completed header_filled
  split <;> exact ⟨rfl, rfl, rfl, rfl, rfl, rfl, rfl⟩

theorem write_header_whole (s : spyserver_source_c) (src : List Nat)
    (hpos : s.parser_position = 0) (hmem : s.header_mem.length = sizeof_MessageHeader)
    (hlen : src.length = sizeof_MessageHeader) :
    write_header s src = { s with header_mem := src } := by
  have h1 : memcpy_at s.header_mem 0 src = src := by
    simp only [memcpy_at, List.take_zero, List.nil_append, Nat.sub_zero, Nat.zero_add]
    rw [List.take_of_length_le (by omega), List.drop_of_length_le (by omega), List.append_nil]
  simp only [write_header, hpos, Nat.zero_mul, h1, Nat.zero_add, hmem, hlen, Nat.lt_irrefl,
    if_false]

/-- A write of `parse_header` entered at a non-zero offset leaves the storage of
`header` as it was: the destination `&header + parser_position` lies at least
one whole `MessageHeader` past it. -/
theorem write_header_offset_keeps_header (s : spyserver_source_c) (src : List Nat)
    (hpos : 0 < s.parser_position) (hmem : s.header_mem.length = sizeof_MessageHeader) :
    (write_header s src).header_mem = s.header_mem := by
  have hoff : s.header_mem.length ≤ s.parser_position * sizeof_MessageHeader := by
    rw [hmem]
    exact Nat.le_mul_of_pos_left _ hpos
  show memcpy_at s.header_mem (s.parser_position * sizeof_MessageHeader) src = s.header_mem
  unfold memcpy_at
  rw [List.take_of_length_le hoff, Nat.sub_eq_zero_of_le hoff, List.take_zero,
    List.drop_of_length_le (by omega), List.append_nil, List.append_nil]

theorem header_completed_whole (s : spyserver_source_c) (hdr rest : List Nat)
    (hpos : s.parser_position = 0) (hmem : s.header_mem.length = sizeof_MessageHeader)
    (hlen : hdr.length = sizeof_MessageHeader) :
    (header_completed s (hdr ++ rest)).header = MessageHeader.of_bytes hdr := by
  unfold header_completed
  rw [hpos, Nat.sub_zero, List.take_left' hlen, write_header_whole s hdr hpos hmem hlen]
  unfold header_filled
  split <;> rfl

theorem acquire_header_loop_complete (fuel : Nat) (s : spyserver_source_c) (buffer : List Nat)
    (hphase : s.parser_phase = .AcquiringHeader)
    (hpos : s.parser_position < sizeof_MessageHeader)
    (hlen : sizeof_MessageHeader - s.parser_position ≤ buffer.length) :
    acquire_header_loop (fuel + 1) s buffer
      = acquire_header_loop fuel (header_completed s buffer)
          (buffer.drop (sizeof_MessageHeader - s.parser_position)) := by
  have hb : 0 < buffer.length := by rw [sizeof_MessageHeader_eq] at hpos hlen; omega
  rw [acquire_header_loop, if_pos ⟨hphase, hb⟩, parse_header_complete s buffer hpos hlen]
  rfl

theorem acquire_header_loop_stop (fuel : Nat) (s : spyserver_source_c) (buffer : List Nat)
    (h : s.parser_phase ≠ .AcquiringHeader ∨ buffer = []) :
    acquire_header_loop (fuel + 1) s buffer = some (s, buffer) := by
  rw [acquire_header_loop, if_neg]
  rintro ⟨h1, h2⟩
  rcases h with h | h
  · exact h h1
  · subst h; simp at h2

theorem header_stage_complete (P : spyserver_protocol) (s : spyserver_source_c)
    (buffer : List Nat) (hphase : s.parser_phase = .AcquiringHeader)
    (hpos : s.parser_position < sizeof_MessageHeader)
    (hlen : sizeof_MessageHeader - s.parser_position ≤ buffer.length)
    (hsize : 0 < (header_completed s buffer).header.BodySize) :
    header_stage P s buffer
      = match check_header P (header_completed s buffer) with
        | .error e => .thrown e (header_completed s buffer)
        | .ok s2 => .returned (s2, buffer.drop (sizeof_MessageHeader - s.parser_position)) := by
  have hph := header_completed_phase_pos s buffer hsize
  rw [header_stage, if_pos hphase, acquire_header_loop_complete _ s buffer hphase hpos hlen,
    acquire_header_loop_stop _ _ _ (Or.inl (by rw [hph]; decide))]
  simp only [hph, if_true]

theorem header_stage_empty_body (P : spyserver_protocol) (s : spyserver_source_c)
    (buffer : List Nat) (hphase : s.parser_phase = .AcquiringHeader)
    (hpos : s.parser_position < sizeof_MessageHeader)
    (hlen : buffer.length = sizeof_MessageHeader - s.parser_position)
    (hsize : (header_completed s buffer).header.BodySize = 0) :
    header_stage P s buffer = .returned (header_completed s buffer, []) := by
  have hph : (header_completed s buffer).parser_phase = .AcquiringHeader := by
    rw [header_completed_phase_zero s buffer hsize]; exact hphase
  have hd : buffer.drop (sizeof_MessageHeader - s.parser_position) = [] :=
    List.drop_of_length_le (by omega)
  rw [header_stage, if_pos hphase,
    acquire_header_loop_complete _ s buffer hphase hpos (by omega), hd,
    acquire_header_loop_stop _ _ _ (Or.inr rfl)]
  simp only [hph]
  rfl

theorem body_stage_skip (P : spyserver_protocol) (s : spyserver_source_c) (buffer : List Nat)
    (h : s.parser_phase = .AcquiringHeader) : body_stage P s buffer = some (s, buffer) := by
  rw [body_stage, if_neg (by rw [h]; decide)]

theorem parse_message_loop_nil (P : spyserver_protocol) (fuel : Nat) (s : spyserver_source_c) :
    parse_message_loop P (fuel + 1) s [] = .returned s := by
  rw [parse_message_loop, if_neg (by simp)]

theorem parse_message_loop_empty_body (P : spyserver_protocol) (fuel : Nat)
    (s : spyserver_source_c) (buffer : List Nat) (hterm : s.terminated = false)
    (hphase : s.parser_phase = .AcquiringHeader)
    (hpos : s.parser_position < sizeof_MessageHeader)
    (hlen : buffer.length = sizeof_MessageHeader - s.parser_position)
    (hsize : (header_completed s buffer).header.BodySize = 0) :
    parse_message_loop P (fuel + 2) s buffer = .returned (header_completed s buffer) := by
  have hb : 0 < buffer.length := by rw [sizeof_MessageHeader_eq] at hpos hlen; omega
  have hph : (header_completed s buffer).parser_phase = .AcquiringHeader := by
    rw [header_completed_phase_zero s buffer hsize]; exact hphase
  rw [parse_message_loop, if_pos ⟨hb, hterm⟩,
    header_stage_empty_body P s buffer hphase hpos hlen hsize]
  simp only [body_stage_skip P _ _ hph]
  exact parse_message_loop_nil P _ _

theorem parse_message_loop_thrown (P : spyserver_protocol) (fuel : Nat)
    (s : spyserver_source_c) (buffer : List Nat) (e : runtime_error)
    (hterm : s.terminated = false) (hphase : s.parser_phase = .AcquiringHeader)
    (hpos : s.parser_position < sizeof_MessageHeader)
    (hlen : sizeof_MessageHeader - s.parser_position ≤ buffer.length)
    (hsize : 0 < (header_completed s buffer).header.BodySize)
    (hcheck : check_header P (header_completed s buffer) = .error e) :
    parse_message_loop P (fuel + 1) s buffer = .thrown e (header_completed s buffer) := by
  have hb : 0 < buffer.length := by rw [sizeof_MessageHeader_eq] at hpos hlen; omega
  rw [parse_message_loop, if_pos ⟨hb, hterm⟩,
    header_stage_complete P s buffer hphase hpos hlen hsize, hcheck]

theorem parse_message_loop_finish_body (P : spyserver_protocol) (fuel : Nat)
    (s : spyserver_source_c) (buffer : List Nat)
    (hterm : s.terminated = false) (hphase : s.parser_phase = .ReadingData)
    (hpos : s.parser_position < s.header.BodySize) (hsize : s.header.BodySize < U32)
    (hlen : buffer.length = s.header.BodySize - s.parser_position) :
    parse_message_loop P (fuel + 2) s buffer
      = .returned (complete_frame P
          { write_body s buffer with parser_position := 0, parser_phase := .AcquiringHeader }) := by
  have hb : 0 < buffer.length := by omega
  have hst : header_stage P s buffer = .returned (s, buffer) := by
    rw [header_stage, if_neg (by rw [hphase]; decide)]
  have htake : buffer.take (s.header.BodySize - s.parser_position) = buffer :=
    List.take_of_length_le (by omega)
  have hdrop : buffer.drop (s.header.BodySize - s.parser_position) = [] :=
    List.drop_of_length_le (by omega)
  rw [parse_message_loop, if_pos ⟨hb, hterm⟩, hst]
  simp only [body_stage, hphase, if_true, parse_body_complete s buffer hpos hsize (by omega),
    htake, hdrop]
  exact parse_message_loop_nil P _ _

theorem read_u32_lt (m : List Nat) (off : Nat) : read_u32 m off < U32 := by
  unfold read_u32 byte_at
  rw [U32_eq]
  omega


theorem header_BodySize_lt (s : spyserver_source_c) : s.header.BodySize < U32 :=
  read_u32_lt _ _


theorem header_completed_header (s : spyserver_source_c) (buffer : List Nat) :
    (header_completed s buffer).header = completed_header s buffer := by
  unfold header_completed header_filled completed_header
  split <;> rfl


theorem completed_header_whole (s : spyserver_source_c) (hdr rest : List Nat)
    (hpos : s.parser_position = 0) (hmem : s.header_mem.length = sizeof_MessageHeader)
    (hlen : hdr.length = sizeof_MessageHeader) :
    completed_header s (hdr ++ rest) = MessageHeader.of_bytes hdr := by
  rw [← header_completed_header, header_completed_whole s hdr rest hpos hmem hlen]


theorem parse_message_eq (P : spyserver_protocol) (s : spyserver_source_c) (buffer : List Nat)
    (fuel : Nat) (h : 2 * buffer.length + 4 = fuel) :
    parse_message P s buffer = parse_message_loop P fuel (counted s) buffer := by
  subst h
  rfl


theorem check_header_mismatch (P : spyserver_protocol) (s : spyserver_source_c)
    (h : version_major P.SPYSERVER_PROTOCOL_VERSION ≠ version_major s.header.ProtocolID
      ∨ version_minor P.SPYSERVER_PROTOCOL_VERSION ≠ version_minor s.header.ProtocolID) :
    check_header P s = .error .unsupported_protocol_version := by
  unfold check_header
  simp only
  rw [if_pos h]


theorem check_header_oversized (P : spyserver_protocol) (s : spyserver_source_c)
    (h : P.SPYSERVER_MAX_MESSAGE_BODY_SIZE < s.header.BodySize) :
    ∃ e, check_header P s = .error e
      ∧ (version_major P.SPYSERVER_PROTOCOL_VERSION = version_major s.header.ProtocolID
          → version_minor P.SPYSERVER_PROTOCOL_VERSION = version_minor s.header.ProtocolID
          → e = .server_probably_buggy) := by
  unfold check_header
  simp only
  by_cases hv : version_major P.SPYSERVER_PROTOCOL_VERSION ≠ version_major s.header.ProtocolID
      ∨ version_minor P.SPYSERVER_PROTOCOL_VERSION ≠ version_minor s.header.ProtocolID
  · rw [if_pos hv]
    refine ⟨_, rfl, ?_⟩
    intro h1 h2
    rcases hv with hv | hv
    · exact absurd h1 hv
    · exact absurd h2 hv
  · rw [if_neg hv, if_pos h]
    exact ⟨_, rfl, fun _ _ => rfl⟩


theorem receive_chunks_thrown (P : spyserver_protocol) (s s1 : spyserver_source_c)
    (chunk : List Nat) (later : List (List Nat)) (e : runtime_error)
    (hterm : s.terminated = false) (h : parse_message P s chunk = .thrown e s1) :
    receive_chunks P s (chunk :: later) = .thrown e s1 := by
  rw [receive_chunks, hterm, h]
  simp


theorem work_copy_eq (n : Nat) :
    ∀ (f : circular_buffer) (out : List gr_complex), n ≤ f.items.length →
      work_copy n f out = ({ f with items := f.items.drop n }, out ++ f.items.take n) := by
  induction n with
  | zero => intro f out _; simp [work_copy]
  | succ n ih =>
    intro f out h
    obtain ⟨cap, items⟩ := f
    cases items with
    | nil => simp at h
    | cons x xs =>
      have hx : n ≤ (circular_buffer.pop_front ⟨cap, x :: xs⟩).items.length := by
        simp [circular_buffer.pop_front] at h ⊢
        omega
      rw [work_copy, ih _ _ hx]
      simp [circular_buffer.pop_front, circular_buffer.at0]

theorem push_back_room (f : circular_buffer) (x : gr_complex) (h : f.items.length < f.capacity) :
    f.push_back x = { f with items := f.items ++ [x] } := by
  unfold circular_buffer.push_back circular_buffer.size
  rw [if_neg (by omega)]

theorem push_samples_room (decode : Nat → gr_complex) (n : Nat) :
    ∀ (i : Nat) (f : circular_buffer), f.items.length + n ≤ f.capacity →
      push_samples decode n i f
        = { f with items := f.items ++ (List.range n).map (fun k => decode (i + k)) } := by
  induction n with
  | zero => intro i f _; simp [push_samples]
  | succ n ih =>
    intro i f h
    rw [push_samples, push_back_room f _ (by omega), ih]
    · simp only [List.range_succ_eq_map, List.map_cons, List.map_map, List.append_assoc,
        List.singleton_append, Nat.add_zero]
      congr 3
      apply List.map_congr_left
      intro k _
      simp only [Function.comp_apply]
      congr 1
      omega
    · simp only [List.length_append, List.length_singleton]
      omega

theorem store_samples_fifo (s : spyserver_source_c) (decode : Nat → gr_complex)
    (num_samples : Nat) (h : s._fifo.size ≤ s._fifo.capacity) :
    (store_samples s decode num_samples)._fifo
      = { s._fifo with
          items := s._fifo.items
            ++ (List.range (min (s._fifo.capacity - s._fifo.size) num_samples)).map decode } := by
  unfold circular_buffer.size at h
  simp only [store_samples, circular_buffer.size]
  have hmin : (if s._fifo.capacity - s._fifo.items.length < num_samples
      then s._fifo.capacity - s._fifo.items.length else num_samples)
      = min (s._fifo.capacity - s._fifo.items.length) num_samples := by
    split <;> omega
  rw [hmin, push_samples_room decode _ 0 s._fifo (by omega)]
  simp

theorem byte_at_lt (m : List Nat) (i : Nat) : byte_at m i < 256 :=
  Nat.mod_lt _ (by decide)


theorem uint8_to_float_bounds (v : Nat) (h : v < 256) :
    -1 ≤ uint8_to_float v ∧ uint8_to_float v ≤ 127 / 128 := by
  unfold uint8_to_float
  have h0 : (0 : ℚ) ≤ (v : ℚ) := Nat.cast_nonneg v
  have h1 : (v : ℚ) ≤ 255 := by exact_mod_cast Nat.le_of_lt_succ h
  constructor
  · rw [le_div_iff₀ (by norm_num)]; linarith
  · rw [div_le_div_iff₀ (by norm_num) (by norm_num)]; linarith


theorem read_int16_bounds (body : List Nat) (j : Nat) :
    -32768 ≤ read_int16 body j ∧ read_int16 body j ≤ 32767 := by
  unfold read_int16
  have h0 := byte_at_lt body (2 * j)
  have h1 := byte_at_lt body (2 * j + 1)
  simp only
  split <;> omega


theorem int16_to_float_bounds (v : Int) (h : -32768 ≤ v ∧ v ≤ 32767) :
    -1 ≤ int16_to_float v ∧ int16_to_float v ≤ 32767 / 32768 := by
  unfold int16_to_float
  have h0 : (-32768 : ℚ) ≤ (v : ℚ) := by exact_mod_cast h.1
  have h1 : (v : ℚ) ≤ 32767 := by exact_mod_cast h.2
  constructor
  · rw [le_div_iff₀ (by norm_num)]; linarith
  · rw [div_le_div_iff₀ (by norm_num) (by norm_num)]; linarith


/-! ## The session manager and the control operations: lemmas -/

theorem set_sample_rate_loop_none (C : spyserver_commands) (s : spyserver_source_c)
    (sampleRate : ℚ) :
    ∀ rates : List (ℚ × Nat), (∀ p ∈ rates, p.1 ≠ sampleRate) →
      set_sample_rate_loop C s sampleRate rates = none := by
  intro rates
  induction rates with
  | nil => intro _; rfl
  | cons p rest ih =>
    intro h
    rw [set_sample_rate_loop, if_neg (h p (List.mem_cons_self _ _))]
    exact ih (fun q hq => h q (List.mem_cons_of_mem _ hq))

theorem cleanup_cleanup (s : spyserver_source_c) : cleanup (cleanup s) = cleanup s := rfl

theorem cleanup_fields (s : spyserver_source_c) :
    (cleanup s).terminated = true
      ∧ (cleanup s).got_device_info = false
      ∧ (cleanup s).got_sync_info = false
      ∧ (cleanup s).dropped_buffers = 0
      ∧ (cleanup s).parser_phase = .AcquiringHeader
      ∧ (cleanup s).parser_position = 0
      ∧ (cleanup s).receiver_thread = s.receiver_thread :=
  ⟨rfl, rfl, rfl, rfl, rfl, rfl, rfl⟩

theorem disconnect_receiver_thread (last : spyserver_source_c → spyserver_source_c)
    (s : spyserver_source_c) : (disconnect last s).receiver_thread = false := by
  unfold disconnect
  cases h : s.receiver_thread <;> simp [h, cleanup]

theorem disconnect_eq_cleanup (last : spyserver_source_c → spyserver_source_c)
    (s : spyserver_source_c) (h : s.receiver_thread = false) :
    disconnect last s = cleanup s := by
  have hc : ¬ (({ s with terminated := true } : spyserver_source_c).receiver_thread = true) := by
    show ¬ (s.receiver_thread = true)
    rw [h]
    decide
  unfold disconnect
  exact (congrArg cleanup (if_neg hc)).trans rfl

theorem bytes_u32_length (w : Nat) : (bytes_u32 w).length = 4 := rfl

theorem read_u32_bytes_u32 (w : Nat) (rest : List Nat) :
    read_u32 (bytes_u32 w ++ rest) 0 = w % U32 := by
  simp only [read_u32, byte_at, bytes_u32, List.cons_append, List.nil_append, List.getD_cons_zero,
    List.getD_cons_succ, Nat.zero_add, U32_eq]
  omega

theorem read_u32_skip (a rest : List Nat) (off : Nat) :
    read_u32 (a ++ rest) (a.length + off) = read_u32 rest off := by
  have h : ∀ k, byte_at (a ++ rest) (a.length + k) = byte_at rest k := by
    intro k
    unfold byte_at
    rw [List.getD_eq_getElem?_getD, List.getD_eq_getElem?_getD,
      List.getElem?_append_right (Nat.le_add_right _ _), Nat.add_sub_cancel_left]
  simp only [read_u32, Nat.add_assoc, h]

theorem flatten_bytes_u32_length (params : List Nat) :
    ((params.map bytes_u32).flatten).length = 4 * params.length := by
  induction params with
  | nil => rfl
  | cons p rest ih =>
    simp only [List.map_cons, List.flatten_cons, List.length_append, ih, bytes_u32_length,
      List.length_cons]
    omega

theorem send_command_connected (s : spyserver_source_c) (cmd : Nat) (args : List Nat)
    (hc : s.is_connected = true) (hlen : args.length < 65536) :
    send_command s cmd args
      = (true, { s with sent := s.sent ++ [bytes_u32 cmd ++ bytes_u32 args.length ++ args] }) := by
  unfold send_command
  rw [if_neg (by rw [hc]; decide)]
  simp only [Nat.mod_eq_of_lt hlen, List.take_length]

theorem handle_new_message_other (P : spyserver_protocol) (s : spyserver_source_c)
    (h : s.header.MessageType ≠ P.MSG_TYPE_DEVICE_INFO
      ∧ s.header.MessageType ≠ P.MSG_TYPE_CLIENT_SYNC
      ∧ s.header.MessageType ≠ P.MSG_TYPE_UINT8_IQ
      ∧ s.header.MessageType ≠ P.MSG_TYPE_INT16_IQ
      ∧ s.header.MessageType ≠ P.MSG_TYPE_FLOAT_IQ) :
    handle_new_message P s
      = if s.terminated then s
        else { s with dispatched := s.dispatched ++ [(s.header, s.body.take s.header.BodySize)] } := by
  obtain ⟨h1, h2, h3, h4, h5⟩ := h
  unfold handle_new_message
  split
  · rfl
  · simp only []
    split
    · rename_i e; exact absurd e h1
    · split
      · rename_i e; exact absurd e h2
      · split
        · rename_i e; exact absurd e h3
        · split
          · rename_i e; exact absurd e h4
          · split
            · rename_i e; exact absurd e h5
            · split <;> rfl

theorem std_sort_sorted (rates : List (ℚ × Nat)) :
    (std_sort rates).Sorted (fun a b => a.1 ≤ b.1) := by
  have h : (std_sort rates).Sorted pair_le := List.sorted_insertionSort pair_le rates
  refine List.Pairwise.imp ?_ h
  intro a b hab
  rcases hab with h1 | ⟨h1, _⟩
  · exact le_of_lt h1
  · exact le_of_eq h1

theorem std_sort_perm (rates : List (ℚ × Nat)) : (std_sort rates).Perm rates :=
  List.perm_insertionSort pair_le rates

theorem sample_rates_loop_eq (MaximumSampleRate DecimationStageCount : Nat)
    (hC : DecimationStageCount + 1 < U32) :
    ∀ (k i : Nat) (rates : List (ℚ × Nat)) (fuel : Nat),
      i + k = DecimationStageCount + 1 → k < fuel →
      sample_rates_loop MaximumSampleRate DecimationStageCount fuel i rates
        = some (rates ++ (List.range' i k).map (stage_entry MaximumSampleRate)) := by
  intro k
  induction k with
  | zero =>
    intro i rates fuel hi hf
    obtain ⟨f, rfl⟩ : ∃ f, fuel = f + 1 := ⟨fuel - 1, by omega⟩
    rw [sample_rates_loop, if_neg (by omega)]
    simp
  | succ k ih =>
    intro i rates fuel hi hf
    obtain ⟨f, rfl⟩ : ∃ f, fuel = f + 1 := ⟨fuel - 1, by omega⟩
    have hmod : (i + 1) % U32 = i + 1 := Nat.mod_eq_of_lt (by omega)
    rw [sample_rates_loop, if_pos (by omega)]
    simp only [hmod]
    rw [ih (i + 1) _ f (by omega) (by omega)]
    simp [List.range'_succ, stage_entry]

theorem sample_rates_loop_skip (MaximumSampleRate DecimationStageCount : Nat)
    (i fuel : Nat) (rates : List (ℚ × Nat)) (h : DecimationStageCount < i) :
    sample_rates_loop MaximumSampleRate DecimationStageCount (fuel + 1) i rates = some rates := by
  rw [sample_rates_loop, if_neg (by omega)]

theorem send_command_only_sends (s : spyserver_source_c) (cmd : Nat) (args : List Nat) :
    (send_command s cmd args).2 = { s with sent := (send_command s cmd args).2.sent } := by
  unfold send_command
  split <;> rfl

theorem set_setting_only_sends (C : spyserver_commands) (s : spyserver_source_c)
    (settingType : Nat) (params : List Nat) :
    (set_setting C s settingType params).2
      = { s with sent := (set_setting C s settingType params).2.sent } :=
  send_command_only_sends s _ _

theorem set_setting_device_info (C : spyserver_commands) (s : spyserver_source_c)
    (settingType : Nat) (params : List Nat) :
    (set_setting C s settingType params).2.device_info = s.device_info :=
  (congrArg spyserver_source_c.device_info
    (set_setting_only_sends C s settingType params)).trans rfl

theorem set_setting_sample_rates (C : spyserver_commands) (s : spyserver_source_c)
    (settingType : Nat) (params : List Nat) :
    (set_setting C s settingType params).2._sample_rates = s._sample_rates :=
  (congrArg spyserver_source_c._sample_rates
    (set_setting_only_sends C s settingType params)).trans rfl

theorem sample_rates_loop_stages (d : DeviceInfo) (rates : List (ℚ × Nat))
    (hcount : d.DecimationStageCount < 31) :
    sample_rates_loop d.MaximumSampleRate d.DecimationStageCount (d.DecimationStageCount + 2)
        d.MinimumIQDecimation rates
      = some (rates ++ stage_entries d) := by
  unfold stage_entries
  by_cases h : d.MinimumIQDecimation ≤ d.DecimationStageCount + 1
  · exact sample_rates_loop_eq d.MaximumSampleRate d.DecimationStageCount
      (by rw [U32_eq]; omega) _ _ rates _ (by omega) (by omega)
  · have h0 : d.DecimationStageCount + 1 - d.MinimumIQDecimation = 0 := by omega
    rw [h0, sample_rates_loop_skip _ _ _ _ _ (by omega)]
    simp

theorem on_connect_sample_rates (C : spyserver_commands) (s : spyserver_source_c)
    (hcount : s.device_info.DecimationStageCount < 31) :
    (on_connect C s).map (fun t => t._sample_rates)
      = some (std_sort (s._sample_rates ++ stage_entries s.device_info)) := by
  unfold on_connect
  simp only [set_setting_device_info, set_setting_sample_rates,
    sample_rates_loop_stages s.device_info _ hcount]
  rfl

theorem connect_poll_never (C : spyserver_commands)
    (env : Nat → spyserver_source_c → spyserver_source_c) :
    ∀ (n i : Nat) (s : spyserver_source_c),
      (∀ k, k < n → ¬ poll_ends C (thread_run env (k + 1) i s)) →
      connect_poll C env n i s
        = (i + n, .thrown .no_capability_info (disconnect (env (i + n)) (thread_run env n i s))) := by
  intro n
  induction n with
  | zero => intro i s _; rfl
  | succ n ih =>
    intro i s h
    have h0 : ¬ poll_ends C (env i s) := h 0 (Nat.succ_pos n)
    have hrec := ih (i + 1) (env i s) (fun k hk => h (k + 1) (Nat.succ_lt_succ hk))
    have hidx : i + 1 + n = i + (n + 1) := by omega
    rw [hidx] at hrec
    unfold poll_ends at h0
    rw [connect_poll]
    split
    · rename_i hd
      split
      · rename_i hi
        exact absurd ⟨hd, Or.inl hi⟩ h0
      · split
        · rename_i hs
          exact absurd ⟨hd, Or.inr hs⟩ h0
        · exact hrec
    · exact hrec

theorem double_to_uint32_in_range (x : ℚ) (hlo : -1 < x) (hhi : x ≤ 4294967295) :
    double_to_uint32 x = ⌊x⌋₊ := by
  have hden : (0 : Int) < x.den := Int.ofNat_pos.mpr x.den_pos
  have hdenq : (0 : ℚ) < (x.den : ℚ) := by exact_mod_cast x.den_pos
  have hx : x = (x.num : ℚ) / (x.den : ℚ) := (Rat.num_div_den x).symm
  unfold double_to_uint32
  by_cases h0 : 0 ≤ x
  · have hnum : 0 ≤ x.num := Rat.num_nonneg.mpr h0
    have ht : Int.tdiv x.num x.den = ⌊x⌋ := by
      rw [Int.tdiv_eq_ediv hnum (Int.ofNat_nonneg _), Rat.floor_def]
    have hf0 : 0 ≤ ⌊x⌋ := Int.floor_nonneg.mpr h0
    have hf1 : ⌊x⌋ < 4294967296 := by
      have : ⌊x⌋ ≤ (4294967295 : Int) := by
        have h := Int.floor_le x
        have : ((⌊x⌋ : Int) : ℚ) ≤ ((4294967295 : Int) : ℚ) := by
          push_cast
          linarith
        exact_mod_cast this
      omega
    simp only [ht]
    rw [if_pos ⟨by omega, by omega⟩, Int.emod_eq_of_lt hf0 hf1]
    exact Int.floor_toNat x
  · have hneg : x < 0 := lt_of_not_le h0
    have hnum : x.num < 0 := Rat.num_neg.mpr hneg
    have hnum2 : -(x.den : Int) < x.num := by
      have h1 : -(x.den : ℚ) < (x.num : ℚ) := by
        have := (lt_div_iff₀ hdenq).mp (by rw [← hx]; exact hlo)
        linarith
      exact_mod_cast h1
    have ht : Int.tdiv x.num x.den = 0 := by
      have h2 : Int.tdiv (-x.num) x.den = 0 := Int.tdiv_eq_zero_of_lt (by omega) (by omega)
      have h3 := Int.neg_tdiv (-x.num) (x.den : Int)
      rw [neg_neg, h2] at h3
      simpa using h3
    simp only [ht]
    rw [if_pos ⟨by omega, by omega⟩, Nat.floor_of_nonpos (le_of_lt hneg)]
    rfl

theorem connect_poll_skip (C : spyserver_commands)
    (env : Nat → spyserver_source_c → spyserver_source_c) :
    ∀ (j n i : Nat) (s : spyserver_source_c),
      (∀ k, k < j → ¬ poll_ends C (thread_run env (k + 1) i s)) →
      connect_poll C env (n + j) i s = connect_poll C env n (i + j) (thread_run env j i s) := by
  intro j
  induction j with
  | zero => intro n i s _; rfl
  | succ j ih =>
    intro n i s h
    have h0 : ¬ poll_ends C (env i s) := h 0 (Nat.succ_pos j)
    have hrec := ih n (i + 1) (env i s) (fun k hk => h (k + 1) (Nat.succ_lt_succ hk))
    have hidx : i + 1 + j = i + (j + 1) := by omega
    rw [hidx] at hrec
    unfold poll_ends at h0
    show connect_poll C env (n + j + 1) i s = _
    rw [connect_poll]
    split
    · rename_i hd
      split
      · rename_i hi
        exact absurd ⟨hd, Or.inl hi⟩ h0
      · split
        · rename_i hs
          exact absurd ⟨hd, Or.inr hs⟩ h0
        · exact hrec
    · exact hrec

theorem connect_poll_invalid (C : spyserver_commands)
    (env : Nat → spyserver_source_c → spyserver_source_c) (n i : Nat) (s : spyserver_source_c)
    (hd : (env i s).got_device_info = true)
    (hi : (env i s).device_info.DeviceType = C.DEVICE_INVALID) :
    connect_poll C env (n + 1) i s
      = (i + 1, .thrown .std_exception (disconnect (env (i + 1)) (env i s))) := by
  rw [connect_poll]
  simp only [hd, hi, if_true]

theorem thread_run_succ (env : Nat → spyserver_source_c → spyserver_source_c) :
    ∀ (k i : Nat) (s : spyserver_source_c),
      thread_run env (k + 1) i s = env (i + k) (thread_run env k i s) := by
  intro k
  induction k with
  | zero => intro i s; rfl
  | succ k ih =>
    intro i s
    have h := ih (i + 1) (env i s)
    have hidx : i + 1 + k = i + (k + 1) := by omega
    rw [hidx] at h
    exact h

theorem thread_run_idle : ∀ (k i : Nat) (s : spyserver_source_c),
    thread_run (fun _ t => t) k i s = s := by
  intro k
  induction k with
  | zero => intro i s; rfl
  | succ k ih => intro i s; exact ih (i + 1) s

/-! ## The framer as a whole: lemmas

The lemmas of this section follow the loop of `parse_message` through any
number of passes, for every entry offset. Where a run copies header bytes from
an offset other than 0 (a copy recorded in `stray`), they describe the model
of `write_header` and not more: the program's behaviour is then undefined.
-/

theorem parse_message_left_loop_forget (P : spyserver_protocol) :
    ∀ (fuel : Nat) (s : spyserver_source_c) (buffer : List Nat),
      (parse_message_left_loop P fuel s buffer).forget = parse_message_loop P fuel s buffer := by
  intro fuel
  induction fuel with
  | zero => intro s buffer; rfl
  | succ fuel ih =>
    intro s buffer
    rw [parse_message_left_loop, parse_message_loop]
    split
    · cases header_stage P s buffer with
      | out_of_fuel => rfl
      | thrown e s1 => rfl
      | returned r =>
        obtain ⟨s1, buffer1⟩ := r
        simp only []
        cases body_stage P s1 buffer1 with
        | none => rfl
        | some r2 =>
          obtain ⟨s2, buffer2⟩ := r2
          exact ih s2 buffer2
    · rfl

theorem parse_message_left_forget (P : spyserver_protocol) (s : spyserver_source_c)
    (buffer : List Nat) :
    (parse_message_left P s buffer).forget = parse_message P s buffer :=
  parse_message_left_loop_forget P _ _ _

theorem process_client_sync_framer (P : spyserver_protocol) (s : spyserver_source_c) :
    (process_client_sync P s).parser_phase = s.parser_phase
      ∧ (process_client_sync P s).parser_position = s.parser_position
      ∧ (process_client_sync P s).terminated = s.terminated
      ∧ (process_client_sync P s).header_mem = s.header_mem := by
  unfold process_client_sync
  simp only
  split
  · exact ⟨rfl, rfl, rfl, rfl⟩
  · split <;> exact ⟨rfl, rfl, rfl, rfl⟩

theorem handle_new_message_framer (P : spyserver_protocol) (s : spyserver_source_c) :
    (handle_new_message P s).parser_phase = s.parser_phase
      ∧ (handle_new_message P s).parser_position = s.parser_position
      ∧ (handle_new_message P s).terminated = s.terminated
      ∧ (handle_new_message P s).header_mem = s.header_mem := by
  unfold handle_new_message
  simp only
  split
  · exact ⟨rfl, rfl, rfl, rfl⟩
  · split
    · exact ⟨rfl, rfl, rfl, rfl⟩
    · split
      · exact process_client_sync_framer P _
      · repeat' split
        all_goals exact ⟨rfl, rfl, rfl, rfl⟩

theorem complete_frame_framer (P : spyserver_protocol) (s : spyserver_source_c) :
    (complete_frame P s).parser_phase = s.parser_phase
      ∧ (complete_frame P s).parser_position = s.parser_position
      ∧ (complete_frame P s).terminated = s.terminated
      ∧ (complete_frame P s).header_mem = s.header_mem := by
  unfold complete_frame
  simp only
  split
  · obtain ⟨h1, h2, h3, h4⟩ := handle_new_message_framer P
      { s with
        last_sequence_number := s.header.SequenceNumber
        dropped_buffers := add_gap s.dropped_buffers
          (sequence_gap s.header.SequenceNumber s.last_sequence_number) }
    exact ⟨h1, h2, h3, h4⟩
  · exact handle_new_message_framer P s

theorem check_header_cases (P : spyserver_protocol) (s : spyserver_source_c) :
    (∃ e, check_header P s = .error e)
      ∨ (∃ s2, check_header P s = .ok s2
        ∧ s2.header_mem = s.header_mem ∧ s2.parser_phase = s.parser_phase
        ∧ s2.parser_position = s.parser_position ∧ s2.terminated = s.terminated
        ∧ s.header.BodySize ≤ P.SPYSERVER_MAX_MESSAGE_BODY_SIZE) := by
  unfold check_header
  simp only
  split
  · exact Or.inl ⟨_, rfl⟩
  · split
    · exact Or.inl ⟨_, rfl⟩
    · rename_i hbig
      split
      · exact Or.inr ⟨_, rfl, rfl, rfl, rfl, rfl, Nat.le_of_not_lt hbig⟩
      · exact Or.inr ⟨_, rfl, rfl, rfl, rfl, rfl, Nat.le_of_not_lt hbig⟩

theorem parse_body_nil (s : spyserver_source_c) : parse_body s [] = some (0, s) := by
  unfold parse_body
  rw [parse_body_loop, if_neg (by simp)]

theorem acquire_header_loop_short (fuel : Nat) (s : spyserver_source_c) (buffer : List Nat)
    (hphase : s.parser_phase = .AcquiringHeader) (hb : 0 < buffer.length)
    (hpos : s.parser_position < sizeof_MessageHeader)
    (hlen : buffer.length < sizeof_MessageHeader - s.parser_position) :
    acquire_header_loop (fuel + 2) s buffer
      = some ({ write_header s buffer with
          parser_position := s.parser_position + buffer.length }, []) := by
  rw [acquire_header_loop, if_pos ⟨hphase, hb⟩, parse_header_short s buffer hb hpos hlen]
  simp only [List.drop_length]
  exact acquire_header_loop_stop _ _ _ (Or.inr rfl)

theorem acquire_header_loop_result :
    ∀ (n : Nat) (s : spyserver_source_c) (buffer : List Nat) (fuel : Nat),
      buffer.length ≤ n → buffer.length < fuel →
      s.parser_phase = .AcquiringHeader → s.parser_position < sizeof_MessageHeader →
      ∃ s1 b1, acquire_header_loop fuel s buffer = some (s1, b1)
        ∧ s1.terminated = s.terminated
        ∧ (0 < buffer.length → b1.length < buffer.length)
        ∧ ((s1.parser_phase = .AcquiringHeader ∧ s1.parser_position < sizeof_MessageHeader
            ∧ b1 = [])
          ∨ (s1.parser_phase = .ReadingData ∧ s1.parser_position = 0
            ∧ 0 < s1.header.BodySize)) := by
  intro n
  induction n with
  | zero =>
    intro s buffer fuel hn hf hphase hpos
    have hnil : buffer = [] := List.length_eq_zero.mp (Nat.le_zero.mp hn)
    subst hnil
    obtain ⟨f, rfl⟩ : ∃ f, fuel = f + 1 := ⟨fuel - 1, by simp at hf; omega⟩
    exact ⟨s, [], acquire_header_loop_stop _ _ _ (Or.inr rfl), rfl, fun h => absurd h (by simp),
      Or.inl ⟨hphase, hpos, rfl⟩⟩
  | succ n ih =>
    intro s buffer fuel hn hf hphase hpos
    by_cases hb : 0 < buffer.length
    · by_cases hshort : buffer.length < sizeof_MessageHeader - s.parser_position
      · obtain ⟨f, rfl⟩ : ∃ f, fuel = f + 2 := ⟨fuel - 2, by omega⟩
        refine ⟨_, [], acquire_header_loop_short f s buffer hphase hb hpos hshort, rfl,
          fun _ => hb, Or.inl ⟨hphase, ?_, rfl⟩⟩
        show s.parser_position + buffer.length < sizeof_MessageHeader
        omega
      · obtain ⟨f, rfl⟩ : ∃ f, fuel = f + 1 := ⟨fuel - 1, by omega⟩
        have hlen : sizeof_MessageHeader - s.parser_position ≤ buffer.length := by omega
        have hk : 0 < sizeof_MessageHeader - s.parser_position := by omega
        have hdrop : (buffer.drop (sizeof_MessageHeader - s.parser_position)).length
            < buffer.length := by
          rw [List.length_drop]; omega
        obtain ⟨hc0, -, hct, -⟩ := header_completed_fields s buffer
        rw [acquire_header_loop_complete f s buffer hphase hpos hlen]
        by_cases hsize : 0 < (header_completed s buffer).header.BodySize
        · have hph := header_completed_phase_pos s buffer hsize
          obtain ⟨f2, rfl⟩ : ∃ f2, f = f2 + 1 := ⟨f - 1, by omega⟩
          exact ⟨_, _, acquire_header_loop_stop _ _ _ (Or.inl (by rw [hph]; decide)), hct,
            fun _ => hdrop, Or.inr ⟨hph, hc0, hsize⟩⟩
        · have hz : (header_completed s buffer).header.BodySize = 0 := by omega
          have hph : (header_completed s buffer).parser_phase = .AcquiringHeader := by
            rw [header_completed_phase_zero s buffer hz]; exact hphase
          obtain ⟨s1, b1, h1, h2, h3, h4⟩ := ih (header_completed s buffer)
            (buffer.drop (sizeof_MessageHeader - s.parser_position)) f (by omega) (by omega) hph
            (by rw [hc0, sizeof_MessageHeader_eq]; omega)
          refine ⟨s1, b1, h1, h2.trans hct, fun _ => ?_, h4⟩
          rcases h4 with ⟨-, -, hnil⟩ | _
          · rw [hnil]; exact hb
          · by_cases hd : 0 < (buffer.drop (sizeof_MessageHeader - s.parser_position)).length
            · exact Nat.lt_trans (h3 hd) hdrop
            · have hdn : buffer.drop (sizeof_MessageHeader - s.parser_position) = [] :=
                List.length_eq_zero.mp (by omega)
              rw [hdn] at h1
              obtain ⟨f3, rfl⟩ : ∃ f3, f = f3 + 1 := ⟨f - 1, by omega⟩
              rw [acquire_header_loop_stop _ _ _ (Or.inr rfl)] at h1
              have hb1 : b1 = [] := by
                injection h1 with h1
                exact (congrArg Prod.snd h1).symm
              rw [hb1]; exact hb
    · have hnil : buffer = [] := List.length_eq_zero.mp (by omega)
      subst hnil
      obtain ⟨f, rfl⟩ : ∃ f, fuel = f + 1 := ⟨fuel - 1, by simp at hf; omega⟩
      exact ⟨s, [], acquire_header_loop_stop _ _ _ (Or.inr rfl), rfl,
        fun h => absurd h hb, Or.inl ⟨hphase, hpos, rfl⟩⟩

theorem header_stage_result (P : spyserver_protocol) (s : spyserver_source_c)
    (buffer : List Nat) (hinv : offset_invariant P s) :
    (∃ e t, header_stage P s buffer = .thrown e t)
      ∨ (∃ s1 b1, header_stage P s buffer = .returned (s1, b1)
        ∧ s1.terminated = s.terminated
        ∧ b1.length ≤ buffer.length
        ∧ (0 < buffer.length → s.parser_phase = .AcquiringHeader → b1.length < buffer.length)
        ∧ offset_invariant P s1
        ∧ (s1.parser_phase = .AcquiringHeader → b1 = [])) := by
  rcases hinv with ⟨hphase, hpos⟩ | ⟨hphase, h1, h2, h3⟩
  · obtain ⟨s1, b1, hrun, hterm, hlt, hres⟩ :=
      acquire_header_loop_result buffer.length s buffer (buffer.length + 2) (Nat.le_refl _)
        (by omega) hphase hpos
    have hle : b1.length ≤ buffer.length := by
      by_cases hb : 0 < buffer.length
      · exact Nat.le_of_lt (hlt hb)
      · have hnil : buffer = [] := List.length_eq_zero.mp (by omega)
        subst hnil
        rw [acquire_header_loop_stop _ _ _ (Or.inr rfl)] at hrun
        injection hrun with hrun
        have e : [] = b1 := congrArg Prod.snd hrun
        rw [← e]
    rw [header_stage, if_pos hphase, hrun]
    rcases hres with ⟨hp1, hp2, hnil⟩ | ⟨hp1, hp2, hp3⟩
    · refine Or.inr ⟨s1, b1, ?_, hterm, hle, fun hb _ => hlt hb, Or.inl ⟨hp1, hp2⟩,
        fun _ => hnil⟩
      simp only [hp1]
      rfl
    · simp only [hp1, if_true]
      rcases check_header_cases P s1 with ⟨e, he⟩ | ⟨s2, he, hm, hph, hpo, hte, hmax⟩
      · exact Or.inl ⟨e, s1, by rw [he]⟩
      · have hhdr : s2.header = s1.header := congrArg MessageHeader.of_bytes hm
        refine Or.inr ⟨s2, b1, by rw [he], hte.trans hterm, hle, fun hb _ => hlt hb,
          Or.inr ⟨hph.trans hp1, ?_, ?_, ?_⟩, fun h => ?_⟩
        · rw [hhdr]; exact hp3
        · rw [hhdr]; exact hmax
        · rw [hhdr, hpo, hp2]; exact hp3
        · rw [hph, hp1] at h
          exact absurd h (by decide)
  · have hne : ¬ s.parser_phase = .AcquiringHeader := by rw [hphase]; decide
    refine Or.inr ⟨s, buffer, ?_, rfl, Nat.le_refl _, fun _ h => absurd h hne,
      Or.inr ⟨hphase, h1, h2, h3⟩, fun h => absurd h hne⟩
    rw [header_stage, if_neg hne]

theorem body_stage_result (P : spyserver_protocol) (s : spyserver_source_c)
    (buffer : List Nat) (hinv : offset_invariant P s)
    (hacq : s.parser_phase = .AcquiringHeader → buffer = []) :
    ∃ s2 b2, body_stage P s buffer = some (s2, b2)
      ∧ s2.terminated = s.terminated
      ∧ b2.length ≤ buffer.length
      ∧ (0 < buffer.length → b2.length < buffer.length)
      ∧ offset_invariant P s2 := by
  rcases hinv with ⟨hphase, hpos⟩ | ⟨hphase, h1, h2, h3⟩
  · have hnil := hacq hphase
    subst hnil
    exact ⟨s, [], body_stage_skip P s [] hphase, rfl, Nat.le_refl _,
      fun h => absurd h (by simp), Or.inl ⟨hphase, hpos⟩⟩
  · have hsize := header_BodySize_lt s
    have hne : ¬ s.parser_phase = .AcquiringHeader := by rw [hphase]; decide
    by_cases hb : 0 < buffer.length
    · by_cases hshort : buffer.length < s.header.BodySize - s.parser_position
      · refine ⟨{ write_body s buffer with
            parser_position := s.parser_position + buffer.length }, [], ?_, rfl,
          Nat.zero_le _, fun _ => hb, Or.inr ⟨hphase, h1, h2, ?_⟩⟩
        · rw [body_stage, if_pos hphase, parse_body_short s buffer hb h3 hsize hshort]
          simp only [List.drop_length]
          have hne2 : ¬ (write_body s buffer).parser_phase = .AcquiringHeader := hne
          rw [if_neg hne2]
        · show s.parser_position + buffer.length < s.header.BodySize
          omega
      · have hlen : s.header.BodySize - s.parser_position ≤ buffer.length := by omega
        obtain ⟨f1, f2, f3, -⟩ := complete_frame_framer P
          { write_body s (buffer.take (s.header.BodySize - s.parser_position)) with
            parser_position := 0, parser_phase := .AcquiringHeader }
        refine ⟨complete_frame P
            { write_body s (buffer.take (s.header.BodySize - s.parser_position)) with
              parser_position := 0, parser_phase := .AcquiringHeader },
          buffer.drop (s.header.BodySize - s.parser_position), ?_, f3, ?_, fun _ => ?_,
          Or.inl ⟨f1, ?_⟩⟩
        · rw [body_stage, if_pos hphase, parse_body_complete s buffer h3 hsize hlen]
          simp only [if_true]
        · rw [List.length_drop]; omega
        · rw [List.length_drop]; omega
        · rw [f2, sizeof_MessageHeader_eq]; exact Nat.succ_pos _
    · have hnil : buffer = [] := List.length_eq_zero.mp (by omega)
      subst hnil
      refine ⟨s, [], ?_, rfl, Nat.le_refl _, fun h => absurd h hb, Or.inr ⟨hphase, h1, h2, h3⟩⟩
      rw [body_stage, if_pos hphase, parse_body_nil]
      simp only [List.drop_nil]
      rw [if_neg hne]

theorem pass_result (P : spyserver_protocol) (s : spyserver_source_c) (buffer : List Nat)
    (hinv : offset_invariant P s) (hb : 0 < buffer.length) :
    (∃ e t, header_stage P s buffer = .thrown e t)
      ∨ (∃ s1 b1 s2 b2, header_stage P s buffer = .returned (s1, b1)
        ∧ body_stage P s1 b1 = some (s2, b2)
        ∧ s2.terminated = s.terminated
        ∧ b2.length < buffer.length
        ∧ offset_invariant P s2) := by
  rcases header_stage_result P s buffer hinv with hthrow | ⟨s1, b1, h1, ht1, hle1, hlt1, hinv1, hacq1⟩
  · exact Or.inl hthrow
  · obtain ⟨s2, b2, h2, ht2, hle2, hlt2, hinv2⟩ := body_stage_result P s1 b1 hinv1 hacq1
    refine Or.inr ⟨s1, b1, s2, b2, h1, h2, ht2.trans ht1, ?_, hinv2⟩
    by_cases hacq : s.parser_phase = .AcquiringHeader
    · exact Nat.lt_of_le_of_lt hle2 (hlt1 hb hacq)
    · have hsame : header_stage P s buffer = .returned (s, buffer) := by
        rw [header_stage, if_neg hacq]
      rw [hsame] at h1
      injection h1 with h1
      have hb1 : b1 = buffer := (congrArg Prod.snd h1).symm
      rw [hb1] at hlt2
      exact hlt2 hb

theorem parse_message_left_loop_result (P : spyserver_protocol) :
    ∀ (n : Nat) (s : spyserver_source_c) (buffer : List Nat) (fuel : Nat),
      buffer.length ≤ n → buffer.length < fuel →
      offset_invariant P s → s.terminated = false →
      (∃ e t, parse_message_left_loop P fuel s buffer = .thrown e t)
        ∨ (∃ s1, parse_message_left_loop P fuel s buffer = .returned (s1, [])
          ∧ offset_invariant P s1 ∧ s1.terminated = false) := by
  intro n
  induction n with
  | zero =>
    intro s buffer fuel hn hf hinv hterm
    have hnil : buffer = [] := List.length_eq_zero.mp (Nat.le_zero.mp hn)
    subst hnil
    obtain ⟨f, rfl⟩ : ∃ f, fuel = f + 1 := ⟨fuel - 1, by simp at hf; omega⟩
    refine Or.inr ⟨s, ?_, hinv, hterm⟩
    rw [parse_message_left_loop, if_neg (by simp)]
  | succ n ih =>
    intro s buffer fuel hn hf hinv hterm
    obtain ⟨f, rfl⟩ : ∃ f, fuel = f + 1 := ⟨fuel - 1, by omega⟩
    by_cases hb : 0 < buffer.length
    · rw [parse_message_left_loop, if_pos ⟨hb, hterm⟩]
      rcases pass_result P s buffer hinv hb with ⟨e, t, hthrow⟩ | ⟨s1, b1, s2, b2, h1, h2, ht, hlt, hinv2⟩
      · rw [hthrow]
        exact Or.inl ⟨e, t, rfl⟩
      · rw [h1]
        simp only [h2]
        exact ih s2 b2 f (by omega) (by omega) hinv2 (ht.trans hterm)
    · have hnil : buffer = [] := List.length_eq_zero.mp (by omega)
      subst hnil
      refine Or.inr ⟨s, ?_, hinv, hterm⟩
      rw [parse_message_left_loop, if_neg (by simp)]

theorem parse_message_left_terminated (P : spyserver_protocol) (s : spyserver_source_c)
    (buffer : List Nat) (hterm : s.terminated = true) :
    parse_message_left P s buffer = .returned (counted s, buffer) := by
  have hne : ¬ (0 < buffer.length ∧ (counted s).terminated = false) := by
    intro h
    have h2 : s.terminated = false := h.2
    rw [hterm] at h2
    exact absurd h2 (by decide)
  show parse_message_left_loop P (2 * buffer.length + 3 + 1) (counted s) buffer = _
  rw [parse_message_left_loop, if_neg hne]

theorem parse_message_left_result (P : spyserver_protocol) (s : spyserver_source_c)
    (buffer : List Nat) (hinv : offset_invariant P s) (hterm : s.terminated = false) :
    (∃ e t, parse_message_left P s buffer = .thrown e t)
      ∨ (∃ s1, parse_message_left P s buffer = .returned (s1, [])
        ∧ offset_invariant P s1 ∧ s1.terminated = false) :=
  parse_message_left_loop_result P buffer.length (counted s) buffer (2 * buffer.length + 4)
    (Nat.le_refl _) (by omega) hinv hterm

theorem parse_message_returned_invariant (P : spyserver_protocol) (s s1 : spyserver_source_c)
    (buffer : List Nat) (hinv : offset_invariant P s)
    (hret : parse_message P s buffer = .returned s1) : offset_invariant P s1 := by
  rw [← parse_message_left_forget] at hret
  cases hterm : s.terminated with
  | true =>
    rw [parse_message_left_terminated P s buffer hterm] at hret
    injection hret with hret
    rw [← hret]
    exact hinv
  | false =>
    rcases parse_message_left_result P s buffer hinv hterm with ⟨e, t, h⟩ | ⟨s2, h, hinv2, -⟩
    · rw [h] at hret
      exact Outcome.noConfusion hret
    · rw [h] at hret
      injection hret with hret
      rw [← hret]
      exact hinv2

theorem receive_chunks_invariant (P : spyserver_protocol) (s1 : spyserver_source_c) :
    ∀ (chunks : List (List Nat)) (s : spyserver_source_c), offset_invariant P s →
      receive_chunks P s chunks = .returned s1 → offset_invariant P s1 := by
  intro chunks
  induction chunks with
  | nil =>
    intro s hinv hret
    rw [receive_chunks] at hret
    injection hret with hret
    rw [← hret]
    exact hinv
  | cons chunk rest ih =>
    intro s hinv hret
    rw [receive_chunks] at hret
    split at hret
    · injection hret with hret
      rw [← hret]
      exact hinv
    · cases hrun : parse_message P s chunk with
      | returned s2 =>
        rw [hrun] at hret
        exact ih s2 (parse_message_returned_invariant P s s2 chunk hinv hrun) hret
      | thrown e t =>
        rw [hrun] at hret
        exact Outcome.noConfusion hret
      | out_of_fuel =>
        rw [hrun] at hret
        exact Outcome.noConfusion hret

theorem parse_body_within (P : spyserver_protocol) (s : spyserver_source_c) (buffer : List Nat)
    (hinv : offset_invariant P s) (hphase : s.parser_phase = .ReadingData)
    (hb : 0 < buffer.length) :
    ∃ n t, parse_body s buffer = some (n, t)
      ∧ 0 < n ∧ n ≤ buffer.length
      ∧ s.parser_position + n ≤ s.header.BodySize
      ∧ t.body_buffer = (write_body s (buffer.take n)).body_buffer := by
  rcases hinv with ⟨hacq, -⟩ | ⟨-, h1, h2, h3⟩
  · rw [hphase] at hacq
    exact absurd hacq (by decide)
  · have hsize := header_BodySize_lt s
    by_cases hshort : buffer.length < s.header.BodySize - s.parser_position
    · refine ⟨buffer.length, _, parse_body_short s buffer hb h3 hsize hshort, hb,
        Nat.le_refl _, by omega, ?_⟩
      rw [List.take_length]
    · have hlen : s.header.BodySize - s.parser_position ≤ buffer.length := by omega
      exact ⟨s.header.BodySize - s.parser_position, _,
        parse_body_complete s buffer h3 hsize hlen, by omega, hlen, by omega, rfl⟩

theorem acquire_header_loop_fuel :
    ∀ (n : Nat) (s : spyserver_source_c) (buffer : List Nat) (fuel1 fuel2 : Nat),
      buffer.length ≤ n → buffer.length < fuel1 → buffer.length < fuel2 →
      s.parser_position < sizeof_MessageHeader →
      acquire_header_loop fuel1 s buffer = acquire_header_loop fuel2 s buffer := by
  intro n
  induction n with
  | zero =>
    intro s buffer fuel1 fuel2 hn h1 h2 _
    have hnil : buffer = [] := List.length_eq_zero.mp (Nat.le_zero.mp hn)
    obtain ⟨f1, rfl⟩ : ∃ f, fuel1 = f + 1 := ⟨fuel1 - 1, by omega⟩
    obtain ⟨f2, rfl⟩ : ∃ f, fuel2 = f + 1 := ⟨fuel2 - 1, by omega⟩
    rw [acquire_header_loop_stop _ _ _ (Or.inr hnil), acquire_header_loop_stop _ _ _ (Or.inr hnil)]
  | succ n ih =>
    intro s buffer fuel1 fuel2 hn h1 h2 hpos
    obtain ⟨f1, rfl⟩ : ∃ f, fuel1 = f + 1 := ⟨fuel1 - 1, by omega⟩
    obtain ⟨f2, rfl⟩ : ∃ f, fuel2 = f + 1 := ⟨fuel2 - 1, by omega⟩
    by_cases hstop : s.parser_phase ≠ .AcquiringHeader ∨ buffer = []
    · rw [acquire_header_loop_stop _ _ _ hstop, acquire_header_loop_stop _ _ _ hstop]
    · have hphase : s.parser_phase = .AcquiringHeader := by
        by_contra h
        exact hstop (Or.inl h)
      have hb : 0 < buffer.length := by
        rcases Nat.eq_zero_or_pos buffer.length with h | h
        · exact absurd (Or.inr (List.length_eq_zero.mp h)) hstop
        · exact h
      by_cases hshort : buffer.length < sizeof_MessageHeader - s.parser_position
      · obtain ⟨g1, rfl⟩ : ∃ f, f1 = f + 1 := ⟨f1 - 1, by omega⟩
        obtain ⟨g2, rfl⟩ : ∃ f, f2 = f + 1 := ⟨f2 - 1, by omega⟩
        rw [acquire_header_loop_short g1 s buffer hphase hb hpos hshort,
          acquire_header_loop_short g2 s buffer hphase hb hpos hshort]
      · have hlen : sizeof_MessageHeader - s.parser_position ≤ buffer.length := by omega
        have hk : 0 < sizeof_MessageHeader - s.parser_position := by omega
        rw [acquire_header_loop_complete f1 s buffer hphase hpos hlen,
          acquire_header_loop_complete f2 s buffer hphase hpos hlen]
        have hdrop : (buffer.drop (sizeof_MessageHeader - s.parser_position)).length
            = buffer.length - (sizeof_MessageHeader - s.parser_position) := List.length_drop _ _
        apply ih
        · omega
        · omega
        · omega
        · rw [(header_completed_fields s buffer).1, sizeof_MessageHeader_eq]
          exact Nat.succ_pos _

theorem header_completed_at_zero (s : spyserver_source_c) (hdr rest : List Nat)
    (hpos : s.parser_position = 0) (hmem : s.header_mem.length = sizeof_MessageHeader)
    (hlen : hdr.length = sizeof_MessageHeader) :
    header_completed s (hdr ++ rest)
      = (if 0 < (MessageHeader.of_bytes hdr).BodySize then
          { s with header_mem := hdr, parser_phase := .ReadingData }
        else { s with header_mem := hdr }) := by
  unfold header_completed
  rw [hpos, Nat.sub_zero, List.take_left' hlen, write_header_whole s hdr hpos hmem hlen]
  unfold header_filled
  cases s
  simp only at hpos
  subst hpos
  rfl

theorem header_stage_skip_header (P : spyserver_protocol) (s : spyserver_source_c)
    (hdr rest : List Nat) (hphase : s.parser_phase = .AcquiringHeader)
    (hpos : s.parser_position = 0) (hmem : s.header_mem.length = sizeof_MessageHeader)
    (hlen : hdr.length = sizeof_MessageHeader)
    (hsize : (MessageHeader.of_bytes hdr).BodySize = 0) :
    header_stage P s (hdr ++ rest) = header_stage P { s with header_mem := hdr } rest := by
  have hpos2 : s.parser_position < sizeof_MessageHeader := by
    rw [hpos, sizeof_MessageHeader_eq]; exact Nat.succ_pos _
  have hlen2 : sizeof_MessageHeader - s.parser_position ≤ (hdr ++ rest).length := by
    rw [List.length_append, hlen]; omega
  have hc : header_completed s (hdr ++ rest) = { s with header_mem := hdr } := by
    rw [header_completed_at_zero s hdr rest hpos hmem hlen, if_neg (by omega)]
  have hd : (hdr ++ rest).drop (sizeof_MessageHeader - s.parser_position) = rest := by
    rw [hpos, Nat.sub_zero, ← hlen, List.drop_left]
  have hphase1 : ({ s with header_mem := hdr } : spyserver_source_c).parser_phase
      = .AcquiringHeader := hphase
  rw [header_stage, if_pos hphase,
    acquire_header_loop_complete _ s (hdr ++ rest) hphase hpos2 hlen2, hc, hd,
    header_stage, if_pos hphase1,
    acquire_header_loop_fuel rest.length { s with header_mem := hdr } rest
      ((hdr ++ rest).length + 1) (rest.length + 2) (Nat.le_refl _)
      (by rw [List.length_append]; omega) (by omega)
      (by show s.parser_position < _; exact hpos2)]

theorem header_stage_nil (P : spyserver_protocol) (s : spyserver_source_c)
    (hphase : s.parser_phase = .AcquiringHeader) :
    header_stage P s [] = .returned (s, []) := by
  rw [header_stage, if_pos hphase, acquire_header_loop_stop _ _ _ (Or.inr rfl)]
  show (if s.parser_phase = .ReadingData then _ else _) = _
  rw [if_neg (by rw [hphase]; decide)]

theorem parse_message_loop_skip_header (P : spyserver_protocol) (fuel : Nat)
    (s : spyserver_source_c) (hdr rest : List Nat) (hterm : s.terminated = false)
    (hphase : s.parser_phase = .AcquiringHeader)
    (hpos : s.parser_position = 0) (hmem : s.header_mem.length = sizeof_MessageHeader)
    (hlen : hdr.length = sizeof_MessageHeader)
    (hsize : (MessageHeader.of_bytes hdr).BodySize = 0) :
    parse_message_loop P (fuel + 2) s (hdr ++ rest)
      = parse_message_loop P (fuel + 2) { s with header_mem := hdr } rest := by
  have hb : 0 < (hdr ++ rest).length := by
    rw [List.length_append, hlen, sizeof_MessageHeader_eq]; omega
  have hphase1 : ({ s with header_mem := hdr } : spyserver_source_c).parser_phase
      = .AcquiringHeader := hphase
  have hterm1 : ({ s with header_mem := hdr } : spyserver_source_c).terminated = false := hterm
  rw [parse_message_loop, if_pos ⟨hb, hterm⟩,
    header_stage_skip_header P s hdr rest hphase hpos hmem hlen hsize]
  cases rest with
  | nil =>
    rw [header_stage_nil P _ hphase1]
    simp only [body_stage_skip P _ _ hphase1]
    rw [parse_message_loop_nil, parse_message_loop_nil]
  | cons b rest =>
    have hb2 : 0 < (b :: rest).length := Nat.succ_pos _
    conv_rhs => rw [parse_message_loop, if_pos ⟨hb2, hterm1⟩]

theorem parse_message_loop_whole_header_thrown (P : spyserver_protocol) (fuel : Nat)
    (s : spyserver_source_c) (hdr rest : List Nat) (e : runtime_error)
    (hterm : s.terminated = false) (hphase : s.parser_phase = .AcquiringHeader)
    (hpos : s.parser_position = 0) (hmem : s.header_mem.length = sizeof_MessageHeader)
    (hlen : hdr.length = sizeof_MessageHeader)
    (hbody : 0 < (MessageHeader.of_bytes hdr).BodySize)
    (hcheck : check_header P { s with header_mem := hdr, parser_phase := .ReadingData }
      = .error e) :
    parse_message_loop P (fuel + 1) s (hdr ++ rest)
      = .thrown e { s with header_mem := hdr, parser_phase := .ReadingData } := by
  have hpos2 : s.parser_position < sizeof_MessageHeader := by
    rw [hpos, sizeof_MessageHeader_eq]; exact Nat.succ_pos _
  have hlen2 : sizeof_MessageHeader - s.parser_position ≤ (hdr ++ rest).length := by
    rw [List.length_append, hlen]; omega
  have hc : header_completed s (hdr ++ rest)
      = { s with header_mem := hdr, parser_phase := .ReadingData } := by
    rw [header_completed_at_zero s hdr rest hpos hmem hlen, if_pos hbody]
  have h := parse_message_loop_thrown P fuel s (hdr ++ rest) e hterm hphase hpos2 hlen2
    (by rw [hc]; exact hbody) (by rw [hc]; exact hcheck)
  rw [hc] at h
  exact h

/-- A header whose 20 bytes reach `parse_message` in one call, in
`AcquiringHeader` at offset 0, and which declares a `BodySize` above
`SPYSERVER_MAX_MESSAGE_BODY_SIZE`: the call throws (the oversize error when the
version matches), nothing is dispatched, and the receiving loop stops there,
whatever follows in the chunk or in later chunks. -/
theorem whole_oversized_header_throws (P : spyserver_protocol) (s : spyserver_source_c)
    (hdr rest : List Nat) (later : List (List Nat)) (hterm : s.terminated = false)
    (hphase : s.parser_phase = .AcquiringHeader) (hpos : s.parser_position = 0)
    (hmem : s.header_mem.length = sizeof_MessageHeader)
    (hlen : hdr.length = sizeof_MessageHeader)
    (hbig : P.SPYSERVER_MAX_MESSAGE_BODY_SIZE < (MessageHeader.of_bytes hdr).BodySize) :
    ∃ e, parse_message P s (hdr ++ rest)
          = .thrown e { counted s with header_mem := hdr, parser_phase := .ReadingData }
      ∧ receive_chunks P s ((hdr ++ rest) :: later)
          = .thrown e { counted s with header_mem := hdr, parser_phase := .ReadingData }
      ∧ (version_major P.SPYSERVER_PROTOCOL_VERSION
            = version_major (MessageHeader.of_bytes hdr).ProtocolID
          → version_minor P.SPYSERVER_PROTOCOL_VERSION
            = version_minor (MessageHeader.of_bytes hdr).ProtocolID
          → e = .server_probably_buggy) := by
  obtain ⟨e, he, hv⟩ := check_header_oversized P
    { counted s with header_mem := hdr, parser_phase := .ReadingData } hbig
  have hrun : parse_message P s (hdr ++ rest)
      = .thrown e { counted s with header_mem := hdr, parser_phase := .ReadingData } :=
    parse_message_loop_whole_header_thrown P _ (counted s) hdr rest e hterm hphase hpos hmem
      hlen (Nat.lt_of_le_of_lt (Nat.zero_le _) hbig) he
  exact ⟨e, hrun, receive_chunks_thrown P s _ _ later e hterm hrun, hv⟩

/-! ## The claims -/

/-- C1 (the code departs from the claim): two frames with sequence numbers 5
and 6. Fed in one call, the frames dispatched carry the sequence numbers 5 and
6. Fed as three chunks, the second header split after its fourth byte, the
second frame is dispatched with the header of the first one, sequence number 5:
`parse_header` copies the rest of the split header to `&header +
parser_position`, a `MessageHeader*` sum, so 80 bytes past `header`. -/
theorem split_header_changes_frames :
    [demo_frame 5 [1, 2], (demo_header 6 2).take 4, (demo_header 6 2).drop 4 ++ [3, 4]].flatten
        = demo_frame 5 [1, 2] ++ demo_frame 6 [3, 4]
      ∧ (parse_message demo_protocol (initial demo_protocol 8)
          (demo_frame 5 [1, 2] ++ demo_frame 6 [3, 4])).frames
        = some [(⟨33556132, 100, 0, 5, 2⟩, [1, 2]), (⟨33556132, 100, 0, 6, 2⟩, [3, 4])]
      ∧ (receive_chunks demo_protocol (initial demo_protocol 8)
          [demo_frame 5 [1, 2], (demo_header 6 2).take 4,
            (demo_header 6 2).drop 4 ++ [3, 4]]).frames
        = some [(⟨33556132, 100, 0, 5, 2⟩, [1, 2]), (⟨33556132, 100, 0, 5, 2⟩, [3, 4])]
      ∧ ((receive_chunks demo_protocol (initial demo_protocol 8)
          [demo_frame 5 [1, 2], (demo_header 6 2).take 4,
            (demo_header 6 2).drop 4 ++ [3, 4]]).state_or (initial demo_protocol 8)).stray
        = [(80, (demo_header 6 2).drop 4)] := by
  decide

/-- C2 (as amended): a header with `BodySize = 0` whose 20 bytes `hdr` reach
`parse_message` in one call, at the front of the bytes the loop has still to
parse, with the framer in `AcquiringHeader` at offset 0. The loop goes on with
the bytes `rest` that follow the header, from the object in which nothing but
the record `header` has changed: it holds the header received. No frame is
dispatched for the header, the sequence number, the dropped counter and the FIFO
are untouched, nothing is written outside `header`, and the framer is in
`AcquiringHeader` at offset 0. The call on `hdr ++ rest` ends as the loop does on
`rest` from that object, and the call on `hdr` alone returns it. -/
theorem empty_body_header_not_dispatched (P : spyserver_protocol) (s : spyserver_source_c)
    (hdr rest : List Nat) (hterm : s.terminated = false)
    (hphase : s.parser_phase = .AcquiringHeader) (hpos : s.parser_position = 0)
    (hmem : s.header_mem.length = sizeof_MessageHeader)
    (hlen : hdr.length = sizeof_MessageHeader)
    (hsize : (MessageHeader.of_bytes hdr).BodySize = 0) :
    (∀ fuel, parse_message_loop P (fuel + 2) s (hdr ++ rest)
        = parse_message_loop P (fuel + 2) { s with header_mem := hdr } rest)
      ∧ parse_message P s (hdr ++ rest)
        = parse_message_loop P (2 * (hdr ++ rest).length + 4)
            { counted s with header_mem := hdr } rest
      ∧ parse_message P s hdr = .returned { counted s with header_mem := hdr }
      ∧ ({ counted s with header_mem := hdr } : spyserver_source_c).header
        = MessageHeader.of_bytes hdr
      ∧ ({ counted s with header_mem := hdr } : spyserver_source_c).dispatched = s.dispatched
      ∧ ({ counted s with header_mem := hdr } : spyserver_source_c).parser_phase
        = .AcquiringHeader
      ∧ ({ counted s with header_mem := hdr } : spyserver_source_c).parser_position = 0
      ∧ ({ counted s with header_mem := hdr } : spyserver_source_c).last_sequence_number
        = s.last_sequence_number
      ∧ ({ counted s with header_mem := hdr } : spyserver_source_c).dropped_buffers
        = s.dropped_buffers
      ∧ ({ counted s with header_mem := hdr } : spyserver_source_c)._fifo = s._fifo
      ∧ ({ counted s with header_mem := hdr } : spyserver_source_c).stray = s.stray := by
  have hloop : ∀ (t : spyserver_source_c), t.terminated = false →
      t.parser_phase = .AcquiringHeader → t.parser_position = 0 →
      t.header_mem.length = sizeof_MessageHeader →
      ∀ fuel, parse_message_loop P (fuel + 2) t (hdr ++ rest)
        = parse_message_loop P (fuel + 2) { t with header_mem := hdr } rest :=
    fun t h1 h2 h3 h4 fuel =>
      parse_message_loop_skip_header P fuel t hdr rest h1 h2 h3 h4 hlen hsize
  have hcall : parse_message P s (hdr ++ rest)
      = parse_message_loop P (2 * (hdr ++ rest).length + 4)
          { counted s with header_mem := hdr } rest :=
    hloop (counted s) hterm hphase hpos hmem (2 * (hdr ++ rest).length + 2)
  refine ⟨hloop s hterm hphase hpos hmem, hcall, ?_, rfl, rfl, hphase, hpos, rfl, rfl, rfl, rfl⟩
  have h := parse_message_loop_skip_header P (2 * hdr.length + 2) (counted s) hdr [] hterm
    hphase hpos hmem hlen hsize
  rw [List.append_nil, parse_message_loop_nil] at h
  exact h

/-- C2, counterexample to the claim as stated: a complete header with
`BodySize = 0`, given to `parse_message` in the initial framer state, makes the
call return with no frame dispatched. -/
theorem empty_body_header_counterexample :
    (MessageHeader.of_bytes (demo_header 5 0)).BodySize = 0
      ∧ (parse_message demo_protocol (initial demo_protocol 8) (demo_header 5 0)).frames
        = some []
      ∧ (parse_message demo_protocol (initial demo_protocol 8) (demo_header 5 0)).error
        = none := by
  decide

/-- C2, witness of `empty_body_header_not_dispatched`: a header with an empty
body in the initial framer state, alone and followed by frame 6: only frame 6
is dispatched. -/
theorem empty_body_header_not_dispatched_witness :
    (parse_message demo_protocol (initial demo_protocol 8) (demo_header 5 0)).frames
        = some []
      ∧ ((parse_message demo_protocol (initial demo_protocol 8) (demo_header 5 0)).state_or
          (initial demo_protocol 8)).parser_phase = .AcquiringHeader
      ∧ (parse_message demo_protocol (initial demo_protocol 8)
          (demo_header 5 0 ++ demo_frame 6 [3, 4])).frames
        = some [(⟨33556132, 100, 0, 6, 2⟩, [3, 4])] := by
  obtain ⟨-, h2, h3, -⟩ := empty_body_header_not_dispatched demo_protocol
    (initial demo_protocol 8) (demo_header 5 0) (demo_frame 6 [3, 4]) rfl rfl rfl
    (by decide) (by decide) (by decide)
  rw [h2, h3]
  decide

/-- C3 (the code departs from the claim): frame 5, then a header with sequence
number 6 that declares 2000000 body bytes, two more bytes and frame 7. When the
oversized header arrives whole, the call throws and only frame 5 has been
dispatched. When it is split after its fourth byte, `parse_header` copies its
remaining 16 bytes to `&header + 4`, 80 bytes past `header`; the record keeps
the sizes of frame 5, no call throws, and two more frames are dispatched: the
two bytes under the header of frame 5, and frame 7. -/
theorem split_oversized_header_accepted :
    (receive_chunks demo_protocol (initial demo_protocol 8)
        [demo_frame 5 [1, 2], demo_header 6 2000000 ++ [3, 4], demo_frame 7 [5, 6]]).error
        = some .server_probably_buggy
      ∧ (receive_chunks demo_protocol (initial demo_protocol 8)
          [demo_frame 5 [1, 2], demo_header 6 2000000 ++ [3, 4], demo_frame 7 [5, 6]]).frames
        = some [(⟨33556132, 100, 0, 5, 2⟩, [1, 2])]
      ∧ (receive_chunks demo_protocol (initial demo_protocol 8)
          [demo_frame 5 [1, 2], (demo_header 6 2000000).take 4,
            (demo_header 6 2000000).drop 4 ++ [3, 4], demo_frame 7 [5, 6]]).error = none
      ∧ (receive_chunks demo_protocol (initial demo_protocol 8)
          [demo_frame 5 [1, 2], (demo_header 6 2000000).take 4,
            (demo_header 6 2000000).drop 4 ++ [3, 4], demo_frame 7 [5, 6]]).frames
        = some [(⟨33556132, 100, 0, 5, 2⟩, [1, 2]), (⟨33556132, 100, 0, 5, 2⟩, [3, 4]),
            (⟨33556132, 100, 0, 7, 2⟩, [5, 6])]
      ∧ ((receive_chunks demo_protocol (initial demo_protocol 8)
          [demo_frame 5 [1, 2], (demo_header 6 2000000).take 4,
            (demo_header 6 2000000).drop 4 ++ [3, 4]]).state_or (initial demo_protocol 8)).stray
        = [(80, (demo_header 6 2000000).drop 4)] := by
  decide

/-- C4 (as amended): a header with a non-empty body whose 20 bytes `hdr` reach
`parse_message` in one call, at the front of the bytes the loop has still to
parse, with the framer in `AcquiringHeader` at offset 0. When its major or minor
version differs from the client's, the loop throws the protocol-version error,
whatever the declared `BodySize` (also above the maximum) and whatever follows
the header; at the throw the record `header` holds the header received, nothing
has been dispatched and no body buffer has been allocated. -/
theorem version_mismatch_throws (P : spyserver_protocol) (s : spyserver_source_c)
    (hdr rest : List Nat) (hterm : s.terminated = false)
    (hphase : s.parser_phase = .AcquiringHeader) (hpos : s.parser_position = 0)
    (hmem : s.header_mem.length = sizeof_MessageHeader)
    (hlen : hdr.length = sizeof_MessageHeader)
    (hbody : 0 < (MessageHeader.of_bytes hdr).BodySize)
    (hver : version_major P.SPYSERVER_PROTOCOL_VERSION
          ≠ version_major (MessageHeader.of_bytes hdr).ProtocolID
      ∨ version_minor P.SPYSERVER_PROTOCOL_VERSION
          ≠ version_minor (MessageHeader.of_bytes hdr).ProtocolID) :
    (∀ fuel, parse_message_loop P (fuel + 1) s (hdr ++ rest)
        = .thrown .unsupported_protocol_version
            { s with header_mem := hdr, parser_phase := .ReadingData })
      ∧ parse_message P s (hdr ++ rest)
        = .thrown .unsupported_protocol_version
            { counted s with header_mem := hdr, parser_phase := .ReadingData }
      ∧ ({ counted s with header_mem := hdr, parser_phase := .ReadingData }
          : spyserver_source_c).header = MessageHeader.of_bytes hdr
      ∧ ({ counted s with header_mem := hdr, parser_phase := .ReadingData }
          : spyserver_source_c).dispatched = s.dispatched
      ∧ ({ counted s with header_mem := hdr, parser_phase := .ReadingData }
          : spyserver_source_c).body_buffer = s.body_buffer := by
  have hloop : ∀ (t : spyserver_source_c), t.terminated = false →
      t.parser_phase = .AcquiringHeader → t.parser_position = 0 →
      t.header_mem.length = sizeof_MessageHeader →
      ∀ fuel, parse_message_loop P (fuel + 1) t (hdr ++ rest)
        = .thrown .unsupported_protocol_version
            { t with header_mem := hdr, parser_phase := .ReadingData } :=
    fun t h1 h2 h3 h4 fuel =>
      parse_message_loop_whole_header_thrown P fuel t hdr rest _ h1 h2 h3 h4 hlen hbody
        (check_header_mismatch P _ hver)
  exact ⟨hloop s hterm hphase hpos hmem, hloop (counted s) hterm hphase hpos hmem _,
    rfl, rfl, rfl⟩

/-- C4, counterexample to the claim as stated: a complete header of version 0.0
with `BodySize = 0` does not make `parse_message` throw. -/
theorem version_mismatch_counterexample :
    version_major demo_protocol.SPYSERVER_PROTOCOL_VERSION
        ≠ version_major (MessageHeader.of_bytes demo_old_version_header).ProtocolID
      ∧ (parse_message demo_protocol (initial demo_protocol 8)
          demo_old_version_header).error = none := by
  decide

/-- C4, witness of `version_mismatch_throws`: a header of version 0.0 declaring
2000000 body bytes, followed by two bytes. -/
theorem version_mismatch_throws_witness :
    (parse_message demo_protocol (initial demo_protocol 8)
        (MessageHeader.to_bytes ⟨0, 100, 0, 5, 2000000⟩ ++ [1, 2])).error
        = some .unsupported_protocol_version
      ∧ (parse_message demo_protocol (initial demo_protocol 8)
          (MessageHeader.to_bytes ⟨0, 100, 0, 5, 2000000⟩ ++ [1, 2])).frames = some [] := by
  obtain ⟨-, h1, -⟩ := version_mismatch_throws demo_protocol
    (initial demo_protocol 8) (MessageHeader.to_bytes ⟨0, 100, 0, 5, 2000000⟩) [1, 2]
    rfl rfl rfl (by decide) (by decide) (by decide) (by decide)
  rw [h1]
  exact ⟨rfl, rfl⟩

/-- C6 (as amended): for every streaming state whose FIFO holds fewer than `n`
samples, `work(n)` returns `n`, its output is `n` zero samples, and the object,
the FIFO included, is unchanged: the buffered samples stay in the FIFO. -/
theorem work_underrun (s : spyserver_source_c) (n : Int)
    (hs : s.streaming = true) (hk : (s._fifo.size : Int) < n) :
    work s n = (n, List.replicate n.toNat zero_sample, s) := by
  simp [work, hs, hk, zero_sample]

/-- C6, witness of `work_underrun`: one buffered sample, two requested. -/
theorem work_underrun_witness :
    work (demo_fifo_state [⟨.bits 1, .bits 2⟩]) 2
      = (2, [zero_sample, zero_sample], demo_fifo_state [⟨.bits 1, .bits 2⟩]) :=
  work_underrun (demo_fifo_state [⟨.bits 1, .bits 2⟩]) 2 rfl (by decide)

/-- C6, counterexample to the claim as stated: with one sample buffered and two
requested, the output is two zero samples, not that sample followed by one
zero, and the FIFO still holds the sample afterwards. -/
theorem work_underrun_counterexample :
    (work (demo_fifo_state [⟨.bits 1, .bits 2⟩]) 2).2.1 = [zero_sample, zero_sample]
      ∧ (work (demo_fifo_state [⟨.bits 1, .bits 2⟩]) 2).2.1
        ≠ [⟨.bits 1, .bits 2⟩, zero_sample]
      ∧ (work (demo_fifo_state [⟨.bits 1, .bits 2⟩]) 2).2.2._fifo.items
        = [⟨.bits 1, .bits 2⟩] := by
  have h : work (demo_fifo_state [⟨.bits 1, .bits 2⟩]) 2
      = (2, [zero_sample, zero_sample], demo_fifo_state [⟨.bits 1, .bits 2⟩]) := by
    simp [work, demo_fifo_state, zero_sample, circular_buffer.size]
  rw [h]
  refine ⟨rfl, ?_, rfl⟩
  simp [zero_sample]

/-- C7: for every `n ≥ 0` and every streaming state whose FIFO holds at least
`n` samples, `work(n)` returns `n`, its output is the `n` oldest samples in
FIFO order, and the FIFO afterwards is the old contents without those `n`
samples at the front. -/
theorem work_enough_samples (s : spyserver_source_c) (n : Nat)
    (hs : s.streaming = true) (hn : n ≤ s._fifo.size) :
    work s (n : Int)
      = ((n : Int), s._fifo.items.take n,
          { s with _fifo := { s._fifo with items := s._fifo.items.drop n } })
      ∧ s._fifo.items = s._fifo.items.take n ++ s._fifo.items.drop n := by
  unfold circular_buffer.size at hn
  have hlt : ¬ ((s._fifo.items.length : Int) < (n : Int)) := by omega
  refine ⟨?_, (List.take_append_drop n _).symm⟩
  simp only [work, hs, circular_buffer.size, hlt, Int.toNat_ofNat, work_copy_eq n _ _ hn]
  simp

/-- C7, witness of `work_enough_samples`: three buffered samples, two requested. -/
theorem work_enough_samples_witness :
    (work (demo_fifo_state [⟨.bits 1, .bits 2⟩, ⟨.bits 3, .bits 4⟩, ⟨.bits 5, .bits 6⟩]) 2).2.1
      = [⟨.bits 1, .bits 2⟩, ⟨.bits 3, .bits 4⟩] := by
  have h := (work_enough_samples
    (demo_fifo_state [⟨.bits 1, .bits 2⟩, ⟨.bits 3, .bits 4⟩, ⟨.bits 5, .bits 6⟩]) 2 rfl
    (by decide)).1
  simp only [Nat.cast_ofNat] at h
  rw [h]
  rfl

/-- C8: for each of the three sample handlers and every FIFO with `size ≤
capacity`, the FIFO afterwards is the old contents followed by the first
`min (capacity - size) num_samples` decoded samples in order, where
`num_samples` is the count the handler derives from `BodySize`; hence the old
contents are untouched and the size stays within the capacity. -/
theorem sample_handlers_append_up_to_capacity (s : spyserver_source_c)
    (h : s._fifo.size ≤ s._fifo.capacity) :
    ((process_uint8_samples s)._fifo.items
        = s._fifo.items ++ (List.range
            (min (s._fifo.capacity - s._fifo.size) (s.header.BodySize / 2))).map
              (uint8_sample s.body)
      ∧ (process_uint8_samples s)._fifo.capacity = s._fifo.capacity
      ∧ (process_uint8_samples s)._fifo.size ≤ s._fifo.capacity)
    ∧ ((process_int16_samples s)._fifo.items
        = s._fifo.items ++ (List.range
            (min (s._fifo.capacity - s._fifo.size) (s.header.BodySize / 2 / 2))).map
              (int16_sample s.body)
      ∧ (process_int16_samples s)._fifo.capacity = s._fifo.capacity
      ∧ (process_int16_samples s)._fifo.size ≤ s._fifo.capacity)
    ∧ ((process_float_samples s)._fifo.items
        = s._fifo.items ++ (List.range
            (min (s._fifo.capacity - s._fifo.size) (s.header.BodySize / 4 / 2))).map
              (float_sample s.body)
      ∧ (process_float_samples s)._fifo.capacity = s._fifo.capacity
      ∧ (process_float_samples s)._fifo.size ≤ s._fifo.capacity) := by
  have key : ∀ (decode : Nat → gr_complex) (m : Nat),
      (store_samples s decode m)._fifo.items
          = s._fifo.items
            ++ (List.range (min (s._fifo.capacity - s._fifo.size) m)).map decode
        ∧ (store_samples s decode m)._fifo.capacity = s._fifo.capacity
        ∧ (store_samples s decode m)._fifo.size ≤ s._fifo.capacity := by
    intro decode m
    rw [store_samples_fifo s decode m h]
    unfold circular_buffer.size at h ⊢
    simp only [List.length_append, List.length_map, List.length_range, true_and]
    omega
  exact ⟨key _ _, key _ _, key _ _⟩

/-- C8, witness of `sample_handlers_append_up_to_capacity`: a FIFO of capacity
1 and a body of two 8-bit samples; one sample is stored. -/
theorem sample_handlers_append_up_to_capacity_witness :
    (process_uint8_samples
        { initial demo_protocol 1 with
          header_mem := demo_header 5 4, body_buffer := some [128, 128, 0, 0] })._fifo.items
      = [uint8_sample [128, 128, 0, 0] 0] := by
  rw [(sample_handlers_append_up_to_capacity
    { initial demo_protocol 1 with
      header_mem := demo_header 5 4, body_buffer := some [128, 128, 0, 0] } (by decide)).1.1]
  have h : min (1 - 0) ((MessageHeader.of_bytes (demo_header 5 4)).BodySize / 2) = 1 := by decide
  have hr : List.range 1 = [0] := rfl
  simp only [initial, circular_buffer.size, spyserver_source_c.header, List.length_nil, h, hr,
    spyserver_source_c.body, Option.getD_some, List.map_cons, List.map_nil, List.nil_append]

/-- C9: `process_uint8_samples` takes `BodySize / 2` samples from the body and
appends to the FIFO those that fit, sample `k` being `((b[2k] - 128) / 128,
(b[2k+1] - 128) / 128)` as exact rationals; every such component lies in
`[-1, 127/128]`; the bytes `(128, 128)` give `(0, 0)` and `(0, 0)` give
`(-1, -1)`. -/
theorem uint8_samples_decoded (s : spyserver_source_c)
    (h : s._fifo.size ≤ s._fifo.capacity) :
    (process_uint8_samples s)._fifo.items
        = s._fifo.items ++ (List.range
            (min (s._fifo.capacity - s._fifo.size) (s.header.BodySize / 2))).map
              (fun k => ⟨.exact (((byte_at s.body (2 * k) : ℚ) - 128) / 128),
                .exact (((byte_at s.body (2 * k + 1) : ℚ) - 128) / 128)⟩)
      ∧ (s.header.BodySize / 2 ≤ s._fifo.capacity - s._fifo.size →
          (process_uint8_samples s)._fifo.size = s._fifo.size + s.header.BodySize / 2)
      ∧ (∀ i, -1 ≤ ((byte_at s.body i : ℚ) - 128) / 128
          ∧ ((byte_at s.body i : ℚ) - 128) / 128 ≤ 127 / 128)
      ∧ uint8_sample [128, 128] 0 = ⟨.exact 0, .exact 0⟩
      ∧ uint8_sample [0, 0] 0 = ⟨.exact (-1), .exact (-1)⟩ := by
  have e := store_samples_fifo s (uint8_sample s.body) (s.header.BodySize / 2) h
  refine ⟨?_, ?_, ?_, ?_, ?_⟩
  · unfold process_uint8_samples
    rw [e]
    rfl
  · intro hfit
    unfold process_uint8_samples
    rw [e]
    simp only [circular_buffer.size, List.length_append, List.length_map, List.length_range]
    unfold circular_buffer.size at hfit
    omega
  · intro i
    exact uint8_to_float_bounds _ (byte_at_lt _ _)
  · norm_num [uint8_sample, uint8_to_float, byte_at]
  · norm_num [uint8_sample, uint8_to_float, byte_at]

/-- C9, witness of `uint8_samples_decoded`: a body of four bytes gives two
samples. -/
theorem uint8_samples_decoded_witness :
    (process_uint8_samples
        { initial demo_protocol 8 with
          header_mem := demo_header 5 4, body_buffer := some [128, 128, 0, 0] })._fifo.items
      = [⟨.exact 0, .exact 0⟩, ⟨.exact (-1), .exact (-1)⟩] := by
  rw [(uint8_samples_decoded
    { initial demo_protocol 8 with
      header_mem := demo_header 5 4, body_buffer := some [128, 128, 0, 0] } (by decide)).1]
  have h : min (8 - 0) ((MessageHeader.of_bytes (demo_header 5 4)).BodySize / 2) = 2 := by decide
  simp only [initial, circular_buffer.size, spyserver_source_c.header, List.length_nil, h,
    spyserver_source_c.body, Option.getD_some]
  norm_num [List.range_succ, byte_at]

/-- C10: `process_int16_samples` takes `(BodySize / 2) / 2` samples from the
body and appends to the FIFO those that fit, sample `k` being `(v[2k] / 32768,
v[2k+1] / 32768)` over the signed 16-bit words `v` of the body, as exact
rationals; every such component lies in `[-1, 32767/32768]`; the words
`(16384, -16384)` give `(1/2, -1/2)`. -/
theorem int16_samples_decoded (s : spyserver_source_c)
    (h : s._fifo.size ≤ s._fifo.capacity) :
    (process_int16_samples s)._fifo.items
        = s._fifo.items ++ (List.range
            (min (s._fifo.capacity - s._fifo.size) (s.header.BodySize / 2 / 2))).map
              (fun k => ⟨.exact ((read_int16 s.body (2 * k) : ℚ) / 32768),
                .exact ((read_int16 s.body (2 * k + 1) : ℚ) / 32768)⟩)
      ∧ (s.header.BodySize / 2 / 2 ≤ s._fifo.capacity - s._fifo.size →
          (process_int16_samples s)._fifo.size = s._fifo.size + s.header.BodySize / 2 / 2)
      ∧ (∀ j, -1 ≤ (read_int16 s.body j : ℚ) / 32768
          ∧ (read_int16 s.body j : ℚ) / 32768 ≤ 32767 / 32768)
      ∧ read_int16 [0, 64, 0, 192] 0 = 16384 ∧ read_int16 [0, 64, 0, 192] 1 = -16384
      ∧ int16_sample [0, 64, 0, 192] 0 = ⟨.exact (1 / 2), .exact (-1 / 2)⟩ := by
  have e := store_samples_fifo s (int16_sample s.body) (s.header.BodySize / 2 / 2) h
  refine ⟨?_, ?_, ?_, by decide, by decide, ?_⟩
  · unfold process_int16_samples
    rw [e]
    rfl
  · intro hfit
    unfold process_int16_samples
    rw [e]
    simp only [circular_buffer.size, List.length_append, List.length_map, List.length_range]
    unfold circular_buffer.size at hfit
    omega
  · intro j
    exact int16_to_float_bounds _ (read_int16_bounds _ _)
  · have h0 : read_int16 [0, 64, 0, 192] (2 * 0) = 16384 := by decide
    have h1 : read_int16 [0, 64, 0, 192] (2 * 0 + 1) = -16384 := by decide
    simp only [int16_sample, h0, h1, int16_to_float]
    norm_num

/-- C10, witness of `int16_samples_decoded`: a body of four bytes gives one
sample. -/
theorem int16_samples_decoded_witness :
    (process_int16_samples
        { initial demo_protocol 8 with
          header_mem := demo_header 5 4, body_buffer := some [0, 64, 0, 192] })._fifo.items
      = [⟨.exact (1 / 2), .exact (-1 / 2)⟩] := by
  rw [(int16_samples_decoded
    { initial demo_protocol 8 with
      header_mem := demo_header 5 4, body_buffer := some [0, 64, 0, 192] } (by decide)).1]
  have h : min (8 - 0) ((MessageHeader.of_bytes (demo_header 5 4)).BodySize / 2 / 2) = 1 := by
    decide
  have h0 : read_int16 [0, 64, 0, 192] (2 * 0) = 16384 := by decide
  have h1 : read_int16 [0, 64, 0, 192] (2 * 0 + 1) = -16384 := by decide
  have hr : List.range 1 = [0] := rfl
  simp only [initial, circular_buffer.size, spyserver_source_c.header, List.length_nil, h,
    spyserver_source_c.body, Option.getD_some, hr, List.map_cons, List.map_nil,
    List.nil_append, h0, h1]
  norm_num

/-- C11: when the requested rate equals no rate of the table `_sample_rates`,
or is above `0xFFFFFFFF`, `set_sample_rate` throws the unsupported-rate error
and the object is left as it was: nothing is sent, the configured sample rate
and the decimation stage are unchanged. -/
theorem set_sample_rate_unsupported (C : spyserver_commands) (s : spyserver_source_c)
    (sampleRate : ℚ)
    (h : (∀ p ∈ s._sample_rates, p.1 ≠ sampleRate) ∨ 4294967295 < sampleRate) :
    set_sample_rate C s sampleRate = .thrown .unsupported_samplerate s
      ∧ (set_sample_rate C s sampleRate).error = some .unsupported_samplerate
      ∧ ((set_sample_rate C s sampleRate).state_or s).sent = s.sent
      ∧ ((set_sample_rate C s sampleRate).state_or s)._sample_rate = s._sample_rate
      ∧ ((set_sample_rate C s sampleRate).state_or s).channel_decimation_stage_count
        = s.channel_decimation_stage_count := by
  have e : set_sample_rate C s sampleRate = .thrown .unsupported_samplerate s := by
    unfold set_sample_rate
    rcases h with h | h
    · rw [set_sample_rate_loop_none C s sampleRate _ h]
      simp
    · rw [if_neg (not_le.mpr h)]
  rw [e]
  exact ⟨rfl, rfl, rfl, rfl, rfl⟩

/-- C11, witness of `set_sample_rate_unsupported`: a table with the rates 1000
and 2000, and the request 1500. -/
theorem set_sample_rate_unsupported_witness :
    (set_sample_rate demo_commands
        { initial demo_protocol 8 with _sample_rates := [(1000, 1), (2000, 0)] } 1500).error
      = some .unsupported_samplerate := by
  exact (set_sample_rate_unsupported demo_commands
    { initial demo_protocol 8 with _sample_rates := [(1000, 1), (2000, 0)] } 1500
    (Or.inl (by
      intro p hp
      simp only [List.mem_cons, List.mem_singleton, List.not_mem_nil, or_false] at hp
      rcases hp with rfl | rfl <;> norm_num))).2.1

/-- C12: when `can_control` is false, `set_gain(gain, chan)` and
`set_lna_gain(gain, chan)` return the stored gain and leave the object as it
was: nothing is sent and the stored gain is unchanged. -/
theorem set_gain_not_controllable (C : spyserver_commands) (s : spyserver_source_c)
    (gain : ℚ) (chan : Nat) (h : s.can_control = false) :
    set_gain C s gain chan = (s._gain, s)
      ∧ set_lna_gain C s gain chan = (s._gain, s)
      ∧ (set_gain C s gain chan).2.sent = s.sent
      ∧ (set_gain C s gain chan).2._gain = s._gain := by
  have e : set_gain C s gain chan = (s._gain, s) := by
    unfold set_gain
    simp [h]
  refine ⟨e, e, ?_, ?_⟩ <;> rw [e]

/-- C12, witness of `set_gain_not_controllable`: the initial object, which
cannot control the device, and the request 7. -/
theorem set_gain_not_controllable_witness :
    set_gain demo_commands (initial demo_protocol 8) 7 0 = (0, initial demo_protocol 8) :=
  (set_gain_not_controllable demo_commands (initial demo_protocol 8) 7 0 rfl).1

/-- C13: `disconnect` after `disconnect` leaves the object that the first
`disconnect` left, whatever the object was before (also without receiver
thread) and whatever the receiver thread still did before being joined; after
a `disconnect`, `terminated` is set, the two handshake flags are clear, the
nine fields of the device info that `cleanup` resets are 0, the dropped count
is 0, and the framer is in `AcquiringHeader` at offset 0. -/
theorem disconnect_idempotent (last1 last2 : spyserver_source_c → spyserver_source_c)
    (s : spyserver_source_c) :
    disconnect last2 (disconnect last1 s) = disconnect last1 s
      ∧ (disconnect last1 s).terminated = true
      ∧ (disconnect last1 s).got_device_info = false
      ∧ (disconnect last1 s).got_sync_info = false
      ∧ (disconnect last1 s).dropped_buffers = 0
      ∧ (disconnect last1 s).parser_phase = .AcquiringHeader
      ∧ (disconnect last1 s).parser_position = 0
      ∧ (disconnect last1 s).receiver_thread = false
      ∧ ((disconnect last1 s).device_info.DeviceType = 0
        ∧ (disconnect last1 s).device_info.DeviceSerial = 0
        ∧ (disconnect last1 s).device_info.DecimationStageCount = 0
        ∧ (disconnect last1 s).device_info.GainStageCount = 0
        ∧ (disconnect last1 s).device_info.MaximumSampleRate = 0
        ∧ (disconnect last1 s).device_info.MaximumBandwidth = 0
        ∧ (disconnect last1 s).device_info.MaximumGainIndex = 0
        ∧ (disconnect last1 s).device_info.MinimumFrequency = 0
        ∧ (disconnect last1 s).device_info.MaximumFrequency = 0) := by
  have hrt := disconnect_receiver_thread last1 s
  refine ⟨?_, rfl, rfl, rfl, rfl, rfl, rfl, hrt, rfl, rfl, rfl, rfl, rfl, rfl, rfl, rfl, rfl⟩
  rw [disconnect_eq_cleanup last2 _ hrt]
  exact cleanup_cleanup _

/-- C14 (as amended): `connect` runs (no receiver thread yet) and `k` is the
number of polls that leave the loop running: none of the polls before poll `k`
reads `got_device_info` set together with `got_sync_info` or with the device
type `DEVICE_INVALID`. When `k` is 1000, `connect` makes 1000 polls, calls
`disconnect` and throws the error of the missing capability and synchronisation
info. When `k` is below 1000 and poll `k` reads `got_device_info` with the
device type `DEVICE_INVALID`, `connect` stops at that poll, calls `disconnect`
and throws its local `std::exception` object, not that error. In both cases
`on_connect` is not run, and afterwards `terminated` is set, the two handshake
flags are clear and there is no receiver thread. -/
theorem connect_handshake_timeout (C : spyserver_commands)
    (env : Nat → spyserver_source_c → spyserver_source_c) (s : spyserver_source_c)
    (k : Nat) (hrt : s.receiver_thread = false) (hk : k ≤ 1000)
    (hnone : ∀ i, i < k →
      ¬ ((poll_state env (connect_start C s) i).got_device_info = true
        ∧ ((poll_state env (connect_start C s) i).device_info.DeviceType = C.DEVICE_INVALID
          ∨ (poll_state env (connect_start C s) i).got_sync_info = true)))
    (hinvalid : k < 1000 →
      (poll_state env (connect_start C s) k).got_device_info = true
        ∧ (poll_state env (connect_start C s) k).device_info.DeviceType = C.DEVICE_INVALID) :
    connect C env s
        = (if k = 1000 then
            (1000, .thrown .no_capability_info
              (disconnect (env 1000) (poll_state env (connect_start C s) 999)))
          else
            (k + 1, .thrown .std_exception
              (disconnect (env (k + 1)) (poll_state env (connect_start C s) k))))
      ∧ (connect C env s).2.error
        = some (if k = 1000 then .no_capability_info else .std_exception)
      ∧ ((connect C env s).2.state_or s).terminated = true
      ∧ ((connect C env s).2.state_or s).got_device_info = false
      ∧ ((connect C env s).2.state_or s).got_sync_info = false
      ∧ ((connect C env s).2.state_or s).receiver_thread = false := by
  have hstart : connect C env s = connect_poll C env 1000 0 (connect_start C s) := by
    unfold connect
    rw [if_neg (by rw [hrt]; decide)]
    rfl
  by_cases hk2 : k = 1000
  · subst hk2
    have hpoll := connect_poll_never C env 1000 0 (connect_start C s) hnone
    rw [Nat.zero_add] at hpoll
    have e : connect C env s
        = (1000, .thrown .no_capability_info
            (disconnect (env 1000) (poll_state env (connect_start C s) 999))) :=
      hstart.trans hpoll
    rw [e, if_pos rfl, if_pos rfl]
    exact ⟨rfl, rfl, rfl, rfl, rfl, disconnect_receiver_thread _ _⟩
  · have hlt : k < 1000 := Nat.lt_of_le_of_ne hk hk2
    obtain ⟨hd, hi⟩ := hinvalid hlt
    obtain ⟨n, hn⟩ : ∃ n, 1000 = n + 1 + k := ⟨999 - k, by omega⟩
    have hskip := connect_poll_skip C env k (n + 1) 0 (connect_start C s) hnone
    rw [← hn, Nat.zero_add] at hskip
    have hpk : poll_state env (connect_start C s) k
        = env k (thread_run env k 0 (connect_start C s)) := by
      have h := thread_run_succ env k 0 (connect_start C s)
      rw [Nat.zero_add] at h
      exact h
    rw [hpk] at hd hi
    have hinv := connect_poll_invalid C env n k (thread_run env k 0 (connect_start C s)) hd hi
    have e : connect C env s
        = (k + 1, .thrown .std_exception
            (disconnect (env (k + 1)) (poll_state env (connect_start C s) k))) := by
      rw [hstart, hskip, hinv, hpk]
    rw [e, if_neg hk2, if_neg hk2]
    exact ⟨rfl, rfl, rfl, rfl, rfl, disconnect_receiver_thread _ _⟩

/-- C14, witness of `connect_handshake_timeout`: a server that sends nothing
(1000 polls), and a server whose device info has the device type
`DEVICE_INVALID` (the first poll ends the loop). -/
theorem connect_handshake_timeout_witness :
    ((connect demo_commands (fun _ t => t) demo_unconnected).1 = 1000
        ∧ (connect demo_commands (fun _ t => t) demo_unconnected).2.error
          = some .no_capability_info)
      ∧ (connect demo_commands demo_invalid_device_env demo_unconnected).1 = 1
      ∧ (connect demo_commands demo_invalid_device_env demo_unconnected).2.error
        = some .std_exception := by
  have h := connect_handshake_timeout demo_commands (fun _ t => t) demo_unconnected 1000 rfl
    (Nat.le_refl _)
    (by
      intro i _ hb
      rw [poll_state, thread_run_idle] at hb
      exact absurd hb.1 (by decide))
    (fun h => absurd h (by decide))
  have h2 := connect_handshake_timeout demo_commands demo_invalid_device_env demo_unconnected 0
    rfl (by decide) (fun i hi => absurd hi (Nat.not_lt_zero i)) (fun _ => by decide)
  rw [h.1, h2.1]
  exact ⟨⟨rfl, rfl⟩, rfl, rfl⟩

/-- C14, counterexample to the claim as stated: the server sends a device info
with the device type `DEVICE_INVALID` and no client sync. The first poll sees
`got_device_info` without `got_sync_info`, and `connect` stops there; what it
throws is not the error of the missing handshake. -/
theorem connect_handshake_counterexample :
    (poll_state demo_invalid_device_env (connect_start demo_commands demo_unconnected)
        0).got_device_info = true
      ∧ (poll_state demo_invalid_device_env (connect_start demo_commands demo_unconnected)
        0).got_sync_info = false
      ∧ (connect demo_commands demo_invalid_device_env demo_unconnected).1 = 1
      ∧ (connect demo_commands demo_invalid_device_env demo_unconnected).2.error
        = some .std_exception := by
  decide

/-- C15 (as amended): `set_center_freq` returns the request itself when it is
at most `0xFFFFFFFF` and the stored `_center_freq` otherwise. A request above
`0xFFFFFFFF` leaves the object as it was. A request above -1 and at most
`0xFFFFFFFF` has its integer part stored as the channel centre frequency and
sent as `IQ_FREQUENCY`, and nothing else changes; the tunable range is neither
read nor changed. For a request of -1 or less, whose conversion to `uint32_t`
is undefined, nothing is said about the object. -/
theorem set_center_freq_returns_request (C : spyserver_commands) (s : spyserver_source_c)
    (centerFrequency : ℚ) (chan : Nat) :
    (set_center_freq C s centerFrequency chan).1
        = (if centerFrequency ≤ 4294967295 then centerFrequency else s._center_freq)
      ∧ (set_center_freq C s centerFrequency chan).2
        = (if 4294967295 < centerFrequency then s
          else if -1 < centerFrequency then
            (set_setting C { s with channel_center_frequency := ⌊centerFrequency⌋₊ }
              C.SETTING_IQ_FREQUENCY [⌊centerFrequency⌋₊]).2
          else (set_center_freq C s centerFrequency chan).2) := by
  by_cases hhi : centerFrequency ≤ 4294967295
  · have hnot : ¬ 4294967295 < centerFrequency := not_lt.mpr hhi
    rw [if_pos hhi, if_neg hnot]
    constructor
    · unfold set_center_freq
      rw [if_pos hhi]
    · by_cases hlo : -1 < centerFrequency
      · rw [if_pos hlo, ← double_to_uint32_in_range centerFrequency hlo hhi]
        unfold set_center_freq
        rw [if_pos hhi]
      · rw [if_neg hlo]
  · rw [if_neg hhi, if_pos (lt_of_not_le hhi)]
    unfold set_center_freq get_center_freq
    rw [if_neg hhi]
    exact ⟨rfl, rfl⟩

/-- C15, counterexample to the claim as stated: with the tunable range 100 to
200, the requests 50 and 300 are returned as they are, outside the range. -/
theorem set_center_freq_counterexample :
    demo_tunable_state.minimum_tunable_frequency = 100
      ∧ demo_tunable_state.maximum_tunable_frequency = 200
      ∧ (set_center_freq demo_commands demo_tunable_state 50 0).1 = 50
      ∧ (set_center_freq demo_commands demo_tunable_state 300 0).1 = 300 := by
  refine ⟨rfl, rfl, ?_, ?_⟩
  · unfold set_center_freq
    rw [if_pos (by norm_num)]
  · unfold set_center_freq
    rw [if_pos (by norm_num)]

/-- C16 (as amended): when connected and for a body `args` of fewer than 65536
bytes, `send_command` gives `client.send_data` one string of `8 + len(args)`
bytes: the words `CommandType = cmd` and `BodySize = len(args)`, then the bytes
of `args` unchanged and in order. -/
theorem send_command_frame (s : spyserver_source_c) (cmd : Nat) (args : List Nat)
    (hc : s.is_connected = true) (hlen : args.length < 65536) :
    (send_command s cmd args).1 = true
      ∧ (send_command s cmd args).2.sent
        = s.sent ++ [bytes_u32 cmd ++ bytes_u32 args.length ++ args]
      ∧ (bytes_u32 cmd ++ bytes_u32 args.length ++ args).length
        = sizeof_CommandHeader + args.length
      ∧ read_u32 (bytes_u32 cmd ++ bytes_u32 args.length ++ args) 0 = cmd % U32
      ∧ read_u32 (bytes_u32 cmd ++ bytes_u32 args.length ++ args) 4 = args.length
      ∧ (bytes_u32 cmd ++ bytes_u32 args.length ++ args).drop sizeof_CommandHeader = args := by
  rw [send_command_connected s cmd args hc hlen]
  refine ⟨rfl, rfl, ?_, ?_, ?_, ?_⟩
  · simp only [List.length_append, bytes_u32_length, sizeof_CommandHeader]
  · rw [List.append_assoc, read_u32_bytes_u32]
  · have h := read_u32_skip (bytes_u32 cmd) (bytes_u32 args.length ++ args) 0
    rw [bytes_u32_length] at h
    rw [List.append_assoc, h, read_u32_bytes_u32, Nat.mod_eq_of_lt]
    rw [U32_eq]
    omega
  · exact List.drop_left' (by simp [bytes_u32_length, sizeof_CommandHeader])

/-- C16, witness of `send_command_frame`: the command 2 with a body of three
bytes. -/
theorem send_command_frame_witness :
    (send_command (initial demo_protocol 8) 2 [7, 8, 9]).2.sent
      = [[2, 0, 0, 0, 3, 0, 0, 0, 7, 8, 9]] := by
  rw [(send_command_frame (initial demo_protocol 8) 2 [7, 8, 9] rfl (by decide)).2.1]
  rfl

/-- C16, counterexample to the claim as stated: with a body of 65536 bytes the
length goes through `uint16_t argLen` and becomes 0, so the string sent is the
8-byte header with `BodySize = 0` and no body byte. -/
theorem send_command_counterexample :
    (List.replicate 65536 7).length = 65536
      ∧ (send_command (initial demo_protocol 8) 2 (List.replicate 65536 7)).2.sent
        = [[2, 0, 0, 0, 0, 0, 0, 0]] := by
  refine ⟨List.length_replicate _ _, ?_⟩
  have e : send_command (initial demo_protocol 8) 2 (List.replicate 65536 7)
      = (true, { initial demo_protocol 8 with sent := [] ++ [bytes_u32 2 ++ bytes_u32 0 ++ []] }) := by
    unfold send_command
    rw [if_neg (by decide)]
    simp only [List.length_replicate, Nat.mod_self, List.take_zero]
    rfl
  rw [e]
  rfl

/-- C17 (the code departs from the claim): after frame 5 the dropped-buffer
counter is 5 (the gap from the initial `0xFFFFFFFF`); a frame with sequence
number 4 then has the signed gap -2 and lowers the counter to 3, and a repeated
frame 5 has the gap -1 and lowers it to 4: `dropped_buffers += gap` is outside
the test `gap > 0`. -/
theorem out_of_order_frame_lowers_dropped_count :
    demo_after_5.dropped_buffers = 5
      ∧ sequence_gap 4 demo_after_5.last_sequence_number = -2
      ∧ ((receive_chunks demo_protocol demo_after_5 [demo_frame 4 [3, 4]]).state_or
          demo_after_5).dropped_buffers = 3
      ∧ ((receive_chunks demo_protocol demo_after_5 [demo_frame 4 [3, 4]]).state_or
          demo_after_5).last_sequence_number = 4
      ∧ sequence_gap 5 demo_after_5.last_sequence_number = -1
      ∧ ((receive_chunks demo_protocol demo_after_5 [demo_frame 5 [3, 4]]).state_or
          demo_after_5).dropped_buffers = 4 := by
  decide

/-- C18: starting from an empty rate table and for a device info with
`DecimationStageCount < 31`, `on_connect` returns and leaves as `_sample_rates`
the sorted list of the entries `(MaximumSampleRate div 2^i, i)` of the stages
`i` from `MinimumIQDecimation` to `DecimationStageCount`: that table is
ascending by rate, it is a rearrangement of those entries, one per stage, and it
holds nothing else. -/
theorem on_connect_rate_table (C : spyserver_commands) (s : spyserver_source_c)
    (hempty : s._sample_rates = [])
    (hcount : s.device_info.DecimationStageCount < 31) :
    (on_connect C s).map (fun t => t._sample_rates)
        = some (std_sort (stage_entries s.device_info))
      ∧ (std_sort (stage_entries s.device_info)).Sorted (fun a b => a.1 ≤ b.1)
      ∧ (std_sort (stage_entries s.device_info)).Perm
          ((List.range' s.device_info.MinimumIQDecimation
              (s.device_info.DecimationStageCount + 1 - s.device_info.MinimumIQDecimation)).map
            (fun i => (((s.device_info.MaximumSampleRate / 2 ^ i : Nat) : ℚ), i)))
      ∧ (∀ p, p ∈ std_sort (stage_entries s.device_info) ↔
          ∃ i, s.device_info.MinimumIQDecimation ≤ i ∧ i ≤ s.device_info.DecimationStageCount
            ∧ p = (((s.device_info.MaximumSampleRate / 2 ^ i : Nat) : ℚ), i)) := by
  refine ⟨?_, std_sort_sorted _, std_sort_perm _, ?_⟩
  · rw [on_connect_sample_rates C s hcount, hempty, List.nil_append]
  · intro p
    rw [(std_sort_perm _).mem_iff]
    unfold stage_entries stage_entry
    simp only [List.mem_map, List.mem_range']
    constructor
    · rintro ⟨i, ⟨k, hk, rfl⟩, rfl⟩
      exact ⟨_, by omega, by omega, rfl⟩
    · rintro ⟨i, h1, h2, rfl⟩
      exact ⟨i, ⟨i - s.device_info.MinimumIQDecimation, by omega, by omega⟩, rfl⟩

/-- C18, witness of `on_connect_rate_table`: the stages 1 to 3 of a maximum rate
of 10000000. -/
theorem on_connect_rate_table_witness :
    (on_connect demo_commands demo_device_state).map (fun t => t._sample_rates)
      = some [(1250000, 3), (2500000, 2), (5000000, 1)] := by
  rw [(on_connect_rate_table demo_commands demo_device_state rfl (by decide)).1]
  decide

/-- C19: a frame whose `MessageType` is `UINT8_FFT`, or none of the six known
types, leaves in `handle_new_message` (which cannot throw) the device info, the
fields set from a client sync, the session flags and the sample FIFO as they
were. The `case` labels of a `switch` are distinct constants. -/
theorem handle_new_message_ignores (P : spyserver_protocol) (s : spyserver_source_c)
    (hlabels : P.MSG_TYPE_UINT8_FFT ≠ P.MSG_TYPE_DEVICE_INFO
      ∧ P.MSG_TYPE_UINT8_FFT ≠ P.MSG_TYPE_CLIENT_SYNC
      ∧ P.MSG_TYPE_UINT8_FFT ≠ P.MSG_TYPE_UINT8_IQ
      ∧ P.MSG_TYPE_UINT8_FFT ≠ P.MSG_TYPE_INT16_IQ
      ∧ P.MSG_TYPE_UINT8_FFT ≠ P.MSG_TYPE_FLOAT_IQ)
    (htype : s.header.MessageType = P.MSG_TYPE_UINT8_FFT
      ∨ (s.header.MessageType ≠ P.MSG_TYPE_DEVICE_INFO
        ∧ s.header.MessageType ≠ P.MSG_TYPE_CLIENT_SYNC
        ∧ s.header.MessageType ≠ P.MSG_TYPE_UINT8_IQ
        ∧ s.header.MessageType ≠ P.MSG_TYPE_INT16_IQ
        ∧ s.header.MessageType ≠ P.MSG_TYPE_FLOAT_IQ
        ∧ s.header.MessageType ≠ P.MSG_TYPE_UINT8_FFT)) :
    (handle_new_message P s).device_info = s.device_info
      ∧ ((handle_new_message P s).can_control = s.can_control
        ∧ (handle_new_message P s)._gain = s._gain
        ∧ (handle_new_message P s).device_center_frequency = s.device_center_frequency
        ∧ (handle_new_message P s).channel_center_frequency = s.channel_center_frequency
        ∧ (handle_new_message P s)._center_freq = s._center_freq
        ∧ (handle_new_message P s).minimum_tunable_frequency = s.minimum_tunable_frequency
        ∧ (handle_new_message P s).maximum_tunable_frequency = s.maximum_tunable_frequency)
      ∧ ((handle_new_message P s).terminated = s.terminated
        ∧ (handle_new_message P s).streaming = s.streaming
        ∧ (handle_new_message P s).got_device_info = s.got_device_info
        ∧ (handle_new_message P s).got_sync_info = s.got_sync_info
        ∧ (handle_new_message P s).is_connected = s.is_connected)
      ∧ (handle_new_message P s)._fifo = s._fifo := by
  have h5 : s.header.MessageType ≠ P.MSG_TYPE_DEVICE_INFO
      ∧ s.header.MessageType ≠ P.MSG_TYPE_CLIENT_SYNC
      ∧ s.header.MessageType ≠ P.MSG_TYPE_UINT8_IQ
      ∧ s.header.MessageType ≠ P.MSG_TYPE_INT16_IQ
      ∧ s.header.MessageType ≠ P.MSG_TYPE_FLOAT_IQ := by
    rcases htype with h | h
    · rw [h]; exact hlabels
    · exact ⟨h.1, h.2.1, h.2.2.1, h.2.2.2.1, h.2.2.2.2.1⟩
  rw [handle_new_message_other P s h5]
  split <;> exact ⟨rfl, ⟨rfl, rfl, rfl, rfl, rfl, rfl, rfl⟩, ⟨rfl, rfl, rfl, rfl, rfl⟩, rfl⟩

/-- C19, witness of `handle_new_message_ignores`: a frame of type `UINT8_FFT`
with a two-byte body. -/
theorem handle_new_message_ignores_witness :
    (handle_new_message demo_protocol
        { initial demo_protocol 8 with
          header_mem := demo_typed_header 301 5 2, body_buffer := some [1, 2] })._fifo
      = (initial demo_protocol 8)._fifo :=
  (handle_new_message_ignores demo_protocol
    { initial demo_protocol 8 with
      header_mem := demo_typed_header 301 5 2, body_buffer := some [1, 2] }
    (by decide) (by decide)).2.2.2

/-- C20 (as amended): when connected and for `N ≥ 1` parameters with
`4 + 4 N < 65536`, `set_setting` sends one `SET_SETTING` command whose body is
`4 + 4 N` bytes long: the setting type as a 32-bit word, then the parameters as
32-bit words in order. -/
theorem set_setting_frame (C : spyserver_commands) (s : spyserver_source_c)
    (settingType : Nat) (params : List Nat) (hc : s.is_connected = true)
    (hpos : 0 < params.length) (hlen : 4 + 4 * params.length < 65536) :
    (set_setting C s settingType params).2.sent
        = s.sent ++ [bytes_u32 C.CMD_SET_SETTING ++ bytes_u32 (4 + 4 * params.length)
            ++ (bytes_u32 settingType ++ (params.map bytes_u32).flatten)]
      ∧ (bytes_u32 settingType ++ (params.map bytes_u32).flatten).length
        = 4 + 4 * params.length
      ∧ read_u32 (bytes_u32 settingType ++ (params.map bytes_u32).flatten) 0
        = settingType % U32 := by
  have hl : (bytes_u32 settingType ++ (params.map bytes_u32).flatten).length
      = 4 + 4 * params.length := by
    rw [List.length_append, bytes_u32_length, flatten_bytes_u32_length]
  refine ⟨?_, hl, read_u32_bytes_u32 _ _⟩
  unfold set_setting
  rw [if_pos hpos, send_command_connected s _ _ hc (by rw [hl]; exact hlen), hl]

/-- C20, witness of `set_setting_frame`: the setting 101 with one parameter. -/
theorem set_setting_frame_witness :
    (set_setting demo_commands (initial demo_protocol 8) 101 [1000000]).2.sent
      = [[2, 0, 0, 0, 8, 0, 0, 0, 101, 0, 0, 0, 64, 66, 15, 0]] := by
  rw [(set_setting_frame demo_commands (initial demo_protocol 8) 101 [1000000] rfl
    (by decide) (by decide)).1]
  rfl

/-- C20, counterexample to the claim as stated: with no parameter the command
sent has an empty body, `BodySize = 0`, without the setting-type word; with
16383 parameters the body length 65536 becomes 0 in `uint16_t argLen` and the
body is not sent either; without connection nothing is sent. -/
theorem set_setting_counterexample :
    (set_setting demo_commands (initial demo_protocol 8) 101 []).2.sent
        = [[2, 0, 0, 0, 0, 0, 0, 0]]
      ∧ (set_setting demo_commands (initial demo_protocol 8) 101
          (List.replicate 16383 1)).2.sent = [[2, 0, 0, 0, 0, 0, 0, 0]]
      ∧ (set_setting demo_commands demo_unconnected 101 [1000000]).2.sent = [] := by
  refine ⟨by decide, ?_, by decide⟩
  have hl : (bytes_u32 101 ++ ((List.replicate 16383 1).map bytes_u32).flatten).length
      = 65536 := by
    rw [List.length_append, bytes_u32_length, flatten_bytes_u32_length, List.length_replicate]
  unfold set_setting
  rw [if_pos (by rw [List.length_replicate]; decide)]
  unfold send_command
  rw [if_neg (by decide)]
  simp only [hl, Nat.mod_self, List.take_zero]
  rfl

/-- C21 (the code departs from the claim): a header with an empty body followed
by the first byte of the next header leaves the framer in `AcquiringHeader` at
offset 1, `terminated` false, within the offset invariant, all bytes having gone
into `header`. In the next call, on the 19 remaining bytes of that header
followed by frame 7, the first pass copies the 19 bytes to `&header + 1`: they
go to the 19 bytes that follow `header` in the object, outside the record. -/
theorem split_header_tail_written_past_header :
    offset_invariant demo_protocol
        ((parse_message demo_protocol (initial demo_protocol 8)
          (demo_header 5 0 ++ (MessageHeader.to_bytes ⟨33556132, 100, 1, 6, 2⟩).take 1)).state_or
            (initial demo_protocol 8))
      ∧ ((parse_message demo_protocol (initial demo_protocol 8)
          (demo_header 5 0 ++ (MessageHeader.to_bytes ⟨33556132, 100, 1, 6, 2⟩).take 1)).state_or
            (initial demo_protocol 8)).parser_position = 1
      ∧ ((parse_message demo_protocol (initial demo_protocol 8)
          (demo_header 5 0 ++ (MessageHeader.to_bytes ⟨33556132, 100, 1, 6, 2⟩).take 1)).state_or
            (initial demo_protocol 8)).terminated = false
      ∧ ((parse_message demo_protocol (initial demo_protocol 8)
          (demo_header 5 0 ++ (MessageHeader.to_bytes ⟨33556132, 100, 1, 6, 2⟩).take 1)).state_or
            (initial demo_protocol 8)).stray = []
      ∧ ((receive_chunks demo_protocol (initial demo_protocol 8)
          [demo_header 5 0 ++ (MessageHeader.to_bytes ⟨33556132, 100, 1, 6, 2⟩).take 1,
            (MessageHeader.to_bytes ⟨33556132, 100, 1, 6, 2⟩).drop 1
              ++ demo_frame 7 [1, 2]]).state_or (initial demo_protocol 8)).stray
        = [(20, [6, 0, 2, 100, 0, 0, 0, 1, 0, 0, 0, 6, 0, 0, 0, 2, 0, 0, 0])] := by
  refine ⟨Or.inl ⟨by decide, by decide⟩, by decide, by decide, by decide, by decide⟩

/-- C22 (the code departs from the claim): from the initial framer state, frame
5 with a two-byte body, then the first byte of a header, then its next eight
bytes. The first two calls return with every byte copied into `header`, the
framer in `AcquiringHeader` at offset 1. The third call returns without error
after copying the eight bytes to `&header + 1`: they go to the eight bytes that
follow `header` in the object, and `header` still declares the two-byte body of
frame 5. -/
theorem split_header_bytes_written_after_header :
    ((receive_chunks demo_protocol (initial demo_protocol 8)
        [demo_frame 5 [1, 2], (demo_typed_header 356 6 2).take 1]).state_or
          (initial demo_protocol 8)).parser_phase = .AcquiringHeader
      ∧ ((receive_chunks demo_protocol (initial demo_protocol 8)
        [demo_frame 5 [1, 2], (demo_typed_header 356 6 2).take 1]).state_or
          (initial demo_protocol 8)).parser_position = 1
      ∧ ((receive_chunks demo_protocol (initial demo_protocol 8)
        [demo_frame 5 [1, 2], (demo_typed_header 356 6 2).take 1]).state_or
          (initial demo_protocol 8)).stray = []
      ∧ (receive_chunks demo_protocol (initial demo_protocol 8)
          [demo_frame 5 [1, 2], (demo_typed_header 356 6 2).take 1,
            ((demo_typed_header 356 6 2).drop 1).take 8]).error = none
      ∧ ((receive_chunks demo_protocol (initial demo_protocol 8)
          [demo_frame 5 [1, 2], (demo_typed_header 356 6 2).take 1,
            ((demo_typed_header 356 6 2).drop 1).take 8]).state_or
              (initial demo_protocol 8)).stray
        = [(20, [6, 0, 2, 100, 1, 0, 0, 0])]
      ∧ ((receive_chunks demo_protocol (initial demo_protocol 8)
          [demo_frame 5 [1, 2], (demo_typed_header 356 6 2).take 1,
            ((demo_typed_header 356 6 2).drop 1).take 8]).state_or
              (initial demo_protocol 8)).header
        = ⟨33556132, 100, 0, 5, 2⟩ := by
  decide

end SpyServer
